import Mathlib

/-!
Verification development for the Schelling segregation model with social
influencers (src/model.py).  The simulation state, the agent decision rules and
the seeding procedure are embedded as executable Lean definitions translated
from src/model.py.  The parts of the running system that live in the external
mesa library (the single grid, the random-activation scheduler, the model's
seedable random source) are not part of the repository sources; those are
modelled from the specification, as marked on each definition.

Randomness is modelled by explicit deterministic streams: the model's seedable
source (`mesaFloats`/`mesaNats`) and numpy's global source (`npFloats`/
`npNats`), matching the two distinct sources the Python code draws from
(`self.random` versus `np.random`).
-/

namespace SchellingSim

/-- The two influence kinds carried by influencer agents ('positive'/'negative'
in src/model.py). -/
inductive Influence where
  | positive
  | negative
deriving DecidableEq

/-- One agent, as constructed by `SchellingAgent.__init__` (src/model.py
lines 32-42).  `tolerance_rate` is `none` for ordinary agents seeded by
`populate_agents` (the Python code passes `None`). -/
structure Agent where
  uid : Nat
  agent_type : Nat
  is_influencer : Bool
  influence_type : Option Influence
  tolerance_rate : Option Int
  pos : Nat × Nat
deriving DecidableEq

/-- Default agent used only as the fallback of list lookups. -/
def dfltAgent : Agent :=
  { uid := 0, agent_type := 0, is_influencer := false, influence_type := none,
    tolerance_rate := none, pos := (0, 0) }

/-- The deterministic random streams.  `mesaFloats`/`mesaNats` model the
model's seedable source (`self.random`, also used by the grid and scheduler);
`npFloats`/`npNats` model numpy's global source (`np.random`), which
src/model.py uses at lines 107 and 168. -/
structure Rngs where
  mesaFloats : List ℚ
  mesaNats : List Nat
  npFloats : List ℚ
  npNats : List Nat
deriving DecidableEq

/-- Draw a float in [0,1) from the model's seedable source. -/
def randMesaFloat (r : Rngs) : ℚ × Rngs :=
  (r.mesaFloats.headD 0, { r with mesaFloats := r.mesaFloats.tail })

/-- Draw a natural number below `n` from the model's seedable source. -/
def randMesaNat (r : Rngs) (n : Nat) : Nat × Rngs :=
  (r.mesaNats.headD 0 % n, { r with mesaNats := r.mesaNats.tail })

/-- Draw a float in [0,1) from numpy's global source. -/
def randNpFloat (r : Rngs) : ℚ × Rngs :=
  (r.npFloats.headD 0, { r with npFloats := r.npFloats.tail })

/-- Draw a natural number below `n` from numpy's global source
(`np.random.randint`). -/
def randNpNat (r : Rngs) (n : Nat) : Nat × Rngs :=
  (r.npNats.headD 0 % n, { r with npNats := r.npNats.tail })

/-- The whole simulation state: the parameters, the mutable counters of
`Schelling.__init__` (src/model.py lines 137-162), the scheduled agents in
creation order, and the grid as an association list from cell to agent id.
Positions are `(row, col)` pairs with `row < height` and `col < width`,
following the spec's data model and the seeding scan of `populate_agents`. -/
structure Model where
  height : Nat
  width : Nat
  density : ℚ
  minority_pc : ℚ
  homophily : Int
  num_type1 : Int
  tolerance_rate_type1 : Int
  num_type2 : Int
  tolerance_rate_type2 : Int
  majority_agent_type : Nat
  happy : Nat
  current_id : Nat
  agents : List Agent
  grid : List ((Nat × Nat) × Nat)
deriving DecidableEq

/-- Chebyshev distance between two cells. -/
def chebDist (p q : Nat × Nat) : Nat :=
  max (Nat.dist p.1 q.1) (Nat.dist p.2 q.2)

/-- All cell positions of a `height × width` grid in row-major order; this is
also the scan order of `populate_agents` (src/model.py lines 165-166). -/
def allCells (height width : Nat) : List (Nat × Nat) :=
  (List.range height).flatMap (fun i => (List.range width).map (fun j => (i, j)))

/-- Whether a position lies on the grid. -/
def inBounds (m : Model) (p : Nat × Nat) : Bool :=
  decide (p.1 < m.height) && decide (p.2 < m.width)

/-- The agent id stored at a cell, if any. -/
def gridGet (m : Model) (p : Nat × Nat) : Option Nat :=
  (m.grid.find? (fun e => e.1 = p)).map (fun e => e.2)

/-- Modelled from the spec: `is_empty(pos)` of the grid contract (section 4.1);
mesa's `SingleGrid.is_cell_empty` is not part of the repository sources. -/
def is_cell_empty (m : Model) (p : Nat × Nat) : Bool :=
  (gridGet m p).isNone

/-- Look up a scheduled agent by id. -/
def findAgent (m : Model) (u : Nat) : Option Agent :=
  m.agents.find? (fun a => a.uid = u)

/-- Modelled from the spec: `neighborhood_positions(pos, radius)` of the grid
contract (section 4.1): all in-bounds positions within Chebyshev distance
`radius` of `p`, excluding `p` itself, with no wraparound; mesa's
`get_neighborhood` is not part of the repository sources. -/
def get_neighborhood (m : Model) (p : Nat × Nat) (radius : Nat) : List (Nat × Nat) :=
  (allCells m.height m.width).filter (fun q => decide (q ≠ p) && decide (chebDist q p ≤ radius))

/-- Modelled from the spec: `neighbors(pos, radius)` of the grid contract
(section 4.1): the occupied agents on the neighborhood positions; mesa's
`get_neighbors` is not part of the repository sources. -/
def get_neighbors (m : Model) (p : Nat × Nat) (radius : Nat) : List Agent :=
  (get_neighborhood m p radius).filterMap (fun q => (gridGet m q).bind (fun u => findAgent m u))

/-- The empty cells of the grid, in row-major order. -/
def empties (m : Model) : List (Nat × Nat) :=
  (allCells m.height m.width).filter (fun p => is_cell_empty m p)

/-- Update the recorded position of agent `u` in the schedule. -/
def setAgentPos (m : Model) (u : Nat) (p : Nat × Nat) : Model :=
  { m with agents := m.agents.map (fun a => if a.uid = u then { a with pos := p } else a) }

/-- Modelled from the spec: `relocate(agent, new_pos)` of the grid contract
(section 4.1): fails if the target is occupied or out of bounds, otherwise
vacates the old cell, occupies the target and updates the agent's position;
mesa's `move_agent` is not part of the repository sources. -/
def move_agent (m : Model) (u : Nat) (p : Nat × Nat) : Option Model :=
  if inBounds m p && is_cell_empty m p then
    some (setAgentPos { m with grid := (p, u) :: m.grid.filter (fun e => decide (e.2 ≠ u)) } u p)
  else none

/-- Modelled from the spec: placing a newly created agent during seeding
(section 4.4); fails if the cell is occupied or out of bounds; mesa's
`place_agent` is not part of the repository sources. -/
def place_agent (m : Model) (a : Agent) (p : Nat × Nat) : Option Model :=
  if inBounds m p && is_cell_empty m p then
    some { m with grid := (p, a.uid) :: m.grid, agents := m.agents ++ [{ a with pos := p }] }
  else none

/-- Modelled from the spec: `relocate_to_random_empty(agent)` of the grid
contract (section 4.1): selects, uniformly at random from the model's seedable
source, one empty cell anywhere on the grid and relocates the agent there; no
movement happens when no empty cell exists; mesa's `move_to_empty` is not part
of the repository sources. -/
def move_to_empty (m : Model) (u : Nat) (r : Rngs) : Model × Rngs :=
  match empties m with
  | [] => (m, r)
  | e :: es =>
    let kr := randMesaNat r (e :: es).length
    let target := (e :: es).getD kr.1 e
    ((move_agent m u target).getD m, kr.2)

/-- `SchellingAgent.select_new_position` (src/model.py lines 105-109): a
uniformly random element of the candidate list, drawn with
`np.random.randint`; `none` when the list is empty (Python returns `None`,
drawing nothing). -/
def select_new_position (possible_positions : List (Nat × Nat)) (r : Rngs) :
    Option (Nat × Nat) × Rngs :=
  match possible_positions with
  | [] => (none, r)
  | p :: ps =>
    let kr := randNpNat r (p :: ps).length
    (some ((p :: ps).getD kr.1 p), kr.2)

/-- One iteration of the loop in `SchellingAgent.double_move` (src/model.py
lines 98-103): sample a position from the radius-2 Moore neighborhood of the
agent's current position and move there only if it is empty.  The `none`
results model the crashes Python would hit: a missing agent, or
`is_cell_empty(None)` when the candidate list was empty. -/
def double_move_once (m : Model) (u : Nat) (r : Rngs) : Option (Model × Rngs) :=
  match findAgent m u with
  | none => none
  | some a =>
    let pr := select_new_position (get_neighborhood m a.pos 2) r
    match pr.1 with
    | none => none
    | some q =>
      if is_cell_empty m q then (move_agent m u q).map (fun m2 => (m2, pr.2))
      else some (m, pr.2)

/-- `SchellingAgent.double_move` (src/model.py lines 97-103): two successive
sub-moves. -/
def double_move (m : Model) (u : Nat) (r : Rngs) : Option (Model × Rngs) :=
  (double_move_once m u r).bind (fun mr => double_move_once mr.1 u mr.2)

/-- The `similar_count` of `SchellingAgent.move_based_on_tolerance`
(src/model.py line 66): radius-1 Moore neighbors of the agent's own type. -/
def tolSimilarCount (m : Model) (a : Agent) : Nat :=
  (get_neighbors m a.pos 1).countP (fun n => decide (n.agent_type = a.agent_type))

/-- The `majority_count` of `SchellingAgent.move_based_on_tolerance`
(src/model.py line 67): radius-1 Moore neighbors of the model's majority
type.  A neighbor of the majority type that also matches the agent's own type
contributes to both counts. -/
def tolMajorityCount (m : Model) (a : Agent) : Nat :=
  (get_neighbors m a.pos 1).countP (fun n => decide (n.agent_type = m.majority_agent_type))

/-- The combined count the influencer rule compares against its tolerance. -/
def tolCombined (m : Model) (a : Agent) : Nat :=
  tolSimilarCount m a + tolMajorityCount m a

/-- The `similar` count of `SchellingAgent.move_based_on_influence_and_tolerance`
(src/model.py lines 79-80): non-influencer radius-1 Moore neighbors sharing the
agent's own type. -/
def ordSimilar (m : Model) (a : Agent) : Nat :=
  (get_neighbors m a.pos 1).countP
    (fun n => decide (n.is_influencer = false ∧ n.agent_type = a.agent_type))

/-- Whether some radius-1 Moore neighbor carries the given influence kind
(src/model.py lines 85-88). -/
def hasInfluenceKind (m : Model) (a : Agent) (i : Influence) : Bool :=
  (get_neighbors m a.pos 1).any (fun n => decide (n.influence_type = some i))

/-- `SchellingAgent.move_based_on_tolerance` (src/model.py lines 63-70):
count radius-1 Moore neighbors of the agent's own type and of the model's
majority type (a neighbor satisfying both is counted twice), and relocate to a
random empty cell when the sum is strictly below the tolerance.  A `none`
tolerance models the `TypeError` Python would raise comparing `int < None`. -/
def move_based_on_tolerance (m : Model) (a : Agent) (r : Rngs) : Option (Model × Rngs) :=
  match a.tolerance_rate with
  | none => none
  | some t =>
    if (tolSimilarCount m a : Int) + (tolMajorityCount m a : Int) < t then
      some (move_to_empty m a.uid r)
    else some (m, r)

/-- `SchellingAgent.move_based_on_influence_and_tolerance` (src/model.py lines
73-95): the ordinary agent's decision procedure. -/
def move_based_on_influence_and_tolerance (m : Model) (a : Agent) (r : Rngs) :
    Option (Model × Rngs) :=
  if m.homophily ≤ (ordSimilar m a : Int) then some ({ m with happy := m.happy + 1 }, r)
  else
    if hasInfluenceKind m a Influence.positive then
      some (m, r)
    else if hasInfluenceKind m a Influence.negative then
      double_move m a.uid r
    else
      some (move_to_empty m a.uid r)

/-- `SchellingAgent.step` (src/model.py lines 57-61), wrapped in the
scheduler's lookup of the agent: the scheduler skips ids that are no longer
registered. -/
def stepAgent (m : Model) (u : Nat) (r : Rngs) : Option (Model × Rngs) :=
  match findAgent m u with
  | none => some (m, r)
  | some a =>
    if a.is_influencer then move_based_on_tolerance m a r
    else move_based_on_influence_and_tolerance m a r

/-- Modelled from the spec: the scheduler's fresh uniformly random permutation
drawn each tick from the model's seedable source (section 4.3); mesa's
`RandomActivation` shuffle is not part of the repository sources.  The fuel
argument equals the list length. -/
def shuffleAux : Nat → List Nat → Rngs → List Nat × Rngs
  | 0, _, r => ([], r)
  | _ + 1, [], r => ([], r)
  | fuel + 1, x :: xs, r =>
    let kr := randMesaNat r (x :: xs).length
    let chosen := (x :: xs).getD kr.1 x
    let rest := (x :: xs).eraseIdx kr.1
    let tr := shuffleAux fuel rest kr.2
    (chosen :: tr.1, tr.2)

/-- Draw a permutation of the id list from the model's seedable source. -/
def shuffle (xs : List Nat) (r : Rngs) : List Nat × Rngs :=
  shuffleAux xs.length xs r

/-- Activate the listed agents in order, threading the state. -/
def runAgents (ids : List Nat) (mr : Model × Rngs) : Option (Model × Rngs) :=
  ids.foldl (fun acc u => acc.bind (fun mr2 => stepAgent mr2.1 u mr2.2)) (some mr)

/-- `Schelling.step` (src/model.py lines 188-190): reset `happy` to zero, then
activate every agent once in a freshly drawn random order. -/
def tick (m : Model) (r : Rngs) : Option (Model × Rngs) :=
  let m0 : Model := { m with happy := 0 }
  let ir := shuffle (m0.agents.map (fun a => a.uid)) r
  runAgents ir.1 (m0, ir.2)

/-- The construction parameters of `Schelling.__init__`. -/
structure Params where
  height : Nat
  width : Nat
  density : ℚ
  minority_pc : ℚ
  homophily : Int
  num_type1 : Int
  tolerance_rate_type1 : Int
  num_type2 : Int
  tolerance_rate_type2 : Int
deriving DecidableEq

/-- The state assembled by `Schelling.__init__` (src/model.py lines 137-160)
before `populate_agents` runs: empty grid, empty schedule, `happy = 0`,
majority type hardcoded to 0.  No parameter validation is performed. -/
def initModel (p : Params) : Model :=
  { height := p.height, width := p.width, density := p.density,
    minority_pc := p.minority_pc, homophily := p.homophily,
    num_type1 := p.num_type1, tolerance_rate_type1 := p.tolerance_rate_type1,
    num_type2 := p.num_type2, tolerance_rate_type2 := p.tolerance_rate_type2,
    majority_agent_type := 0, happy := 0, current_id := 0,
    agents := [], grid := [] }

/-- The influencer allocation of `Schelling.populate_agents` (src/model.py
lines 169-182): while positive influencers remain to be placed the new agent
is a positive influencer with the positive tolerance, else while negative
influencers remain it is a negative influencer with the negative tolerance,
else ordinary; the matching counter is decremented. -/
def allocInfluencer (m : Model) : Model × Bool × Option Influence × Option Int :=
  if 0 < m.num_type1 then
    ({ m with num_type1 := m.num_type1 - 1 }, true, some Influence.positive,
      some m.tolerance_rate_type1)
  else if 0 < m.num_type2 then
    ({ m with num_type2 := m.num_type2 - 1 }, true, some Influence.negative,
      some m.tolerance_rate_type2)
  else (m, false, none, none)

/-- Seed one cell of the scan in `Schelling.populate_agents` (src/model.py
lines 164-186): draw the density test from the model's seedable source; on
success draw the type from numpy's global source, allocate influencer status
from the remaining counters, create the agent with the next id and place it. -/
def seedCell (m : Model) (r : Rngs) (p : Nat × Nat) : Option (Model × Rngs) :=
  let dr := randMesaFloat r
  if dr.1 < m.density then
    let tr := randNpFloat dr.2
    let tpe : Nat := if m.minority_pc < tr.1 then 0 else 1
    let alloc := allocInfluencer m
    let m2 : Model := { alloc.1 with current_id := alloc.1.current_id + 1 }
    let a : Agent :=
      { uid := m2.current_id, agent_type := tpe, is_influencer := alloc.2.1,
        influence_type := alloc.2.2.1, tolerance_rate := alloc.2.2.2, pos := p }
    (place_agent m2 a p).map (fun m3 => (m3, tr.2))
  else some (m, dr.2)

/-- `Schelling.__init__` followed by `Schelling.populate_agents`: scan the grid
in row-major order and seed each cell. -/
def construct (p : Params) (r : Rngs) : Option (Model × Rngs) :=
  (allCells p.height p.width).foldl
    (fun acc q => acc.bind (fun mr => seedCell mr.1 mr.2 q)) (some (initModel p, r))

/-- Run `n` ticks from a constructed model, collecting the `happy` value
reported after each tick (the data the model's reporter exposes). -/
def runTicks : Nat → Model → Rngs → Option (List Nat × Model × Rngs)
  | 0, m, r => some ([], m, r)
  | n + 1, m, r =>
    (tick m r).bind (fun mr =>
      (runTicks n mr.1 mr.2).map (fun lr => (mr.1.happy :: lr.1, lr.2)))

/-- A full run: construct from the parameters, then run `n` ticks. -/
def runSim (p : Params) (r : Rngs) (n : Nat) : Option (List Nat × Model × Rngs) :=
  (construct p r).bind (fun mr => runTicks n mr.1 mr.2)

/-- The position recorded for agent `u`. -/
def posOf (m : Model) (u : Nat) : Option (Nat × Nat) :=
  (findAgent m u).map (fun a => a.pos)

/-- The states reachable by constructing from parameters `p` with some random
streams and then running any number of ticks. -/
inductive Reachable (p : Params) : Model → Prop where
  | base : ∀ r m r', construct p r = some (m, r') → Reachable p m
  | tick : ∀ m r m' r', Reachable p m → tick m r = some (m', r') → Reachable p m'

/-- No two grid entries occupy the same cell. -/
def cellsNodup (m : Model) : Prop :=
  (m.grid.map (fun e => e.1)).Nodup

/-- Scheduled agents carry pairwise distinct ids. -/
def uidsNodup (m : Model) : Prop :=
  (m.agents.map (fun a => a.uid)).Nodup

/-- Every scheduled agent's id is at most the id counter (so the next id is
fresh). -/
def uidBound (m : Model) : Prop :=
  ∀ a ∈ m.agents, a.uid ≤ m.current_id

/-- Every grid entry points at a scheduled agent recording that cell as its
position. -/
def gridToAgents (m : Model) : Prop :=
  ∀ e ∈ m.grid, ∃ a ∈ m.agents, a.uid = e.2 ∧ a.pos = e.1

/-- Every scheduled agent's recorded cell is present in the grid under its
id. -/
def agentsToGrid (m : Model) : Prop :=
  ∀ a ∈ m.agents, (a.pos, a.uid) ∈ m.grid

/-- Every occupied cell lies on the grid. -/
def gridBounds (m : Model) : Prop :=
  ∀ e ∈ m.grid, e.1.1 < m.height ∧ e.1.2 < m.width

/-- The full occupancy invariant of a simulation state. -/
def Invariant (m : Model) : Prop :=
  cellsNodup m ∧ uidsNodup m ∧ uidBound m ∧ gridToAgents m ∧ agentsToGrid m ∧
    gridBounds m ∧ m.grid.length = m.agents.length

/-- An agent with every influence attribute cleared; used to state that a
computation never reads those attributes. -/
def stripInfluence (a : Agent) : Agent :=
  { a with is_influencer := false, influence_type := none, tolerance_rate := none }

/-- Clear the influence attributes of every agent other than `u`. -/
def eraseOthersInfluence (m : Model) (u : Nat) : Model :=
  { m with agents := m.agents.map (fun a => if a.uid = u then a else stripInfluence a) }

/-- The observable outcome of one agent activation: the grid occupancy, every
agent's recorded position, the happy counter and the remaining random
streams. -/
def stepObs (mr : Model × Rngs) : List ((Nat × Nat) × Nat) × List (Nat × (Nat × Nat)) × Nat × Rngs :=
  (mr.1.grid, mr.1.agents.map (fun a => (a.uid, a.pos)), mr.1.happy, mr.2)

/-- Everything the seeding decides about an agent except its type: id,
influencer status, influence kind, tolerance and position. -/
def agentShape (a : Agent) : Nat × Bool × Option Influence × Option Int × (Nat × Nat) :=
  (a.uid, a.is_influencer, a.influence_type, a.tolerance_rate, a.pos)

/-- Every field of the state except the agent list. -/
def nonAgentFields (m : Model) :
    Nat × Nat × ℚ × ℚ × Int × Int × Int × Int × Int × Nat × Nat × Nat ×
      List ((Nat × Nat) × Nat) :=
  (m.height, m.width, m.density, m.minority_pc, m.homophily, m.num_type1,
    m.tolerance_rate_type1, m.num_type2, m.tolerance_rate_type2,
    m.majority_agent_type, m.happy, m.current_id, m.grid)

/-- The part of a constructed state the claim says is decided by the model's
seedable source alone: grid occupancy and every agent's shape. -/
def seedSkeleton (m : Model) :
    List ((Nat × Nat) × Nat) × List (Nat × Bool × Option Influence × Option Int × (Nat × Nat)) :=
  (m.grid, m.agents.map agentShape)

/-- Two states that agree on everything except, possibly, the `agent_type`
field of their agents. -/
def NpAgnostic (m m' : Model) : Prop :=
  m.height = m'.height ∧ m.width = m'.width ∧ m.density = m'.density ∧
  m.minority_pc = m'.minority_pc ∧ m.homophily = m'.homophily ∧
  m.num_type1 = m'.num_type1 ∧ m.tolerance_rate_type1 = m'.tolerance_rate_type1 ∧
  m.num_type2 = m'.num_type2 ∧ m.tolerance_rate_type2 = m'.tolerance_rate_type2 ∧
  m.majority_agent_type = m'.majority_agent_type ∧ m.happy = m'.happy ∧
  m.current_id = m'.current_id ∧ m.grid = m'.grid ∧
  m.agents.map agentShape = m'.agents.map agentShape

/-- Following the claim's words for the influencer-tolerance property: the
number of distinct radius-1 Moore neighbors that are same-type or
majority-type, each such neighbor counted once even when it satisfies both
conditions.  This is the reading the source does not implement. -/
def sameOrMajorityDistinct (m : Model) (a : Agent) : Nat :=
  (get_neighbors m a.pos 1).countP
    (fun n => decide (n.agent_type = a.agent_type ∨ n.agent_type = m.majority_agent_type))

/-- The influencer allocation the seeding scan produces for the agent at
seeding index `k`: positive influencer for the first `num_type1` agents,
negative influencer for the next `num_type2`, ordinary afterwards. -/
def influAlloc (p : Params) (k : Nat) (a : Agent) : Prop :=
  (k < p.num_type1.toNat →
      a.is_influencer = true ∧ a.influence_type = some Influence.positive ∧
        a.tolerance_rate = some p.tolerance_rate_type1) ∧
  (p.num_type1.toNat ≤ k → k < p.num_type1.toNat + p.num_type2.toNat →
      a.is_influencer = true ∧ a.influence_type = some Influence.negative ∧
        a.tolerance_rate = some p.tolerance_rate_type2) ∧
  (p.num_type1.toNat + p.num_type2.toNat ≤ k →
      a.is_influencer = false ∧ a.influence_type = none ∧ a.tolerance_rate = none)

/-- The invariant of the seeding scan that determines influencer allocation:
the tolerance parameters are unchanged, the remaining counters reflect how
many agents have been seeded, and every seeded agent so far follows the
scan-order allocation. -/
def SeedInv (p : Params) (m : Model) : Prop :=
  m.tolerance_rate_type1 = p.tolerance_rate_type1 ∧
  m.tolerance_rate_type2 = p.tolerance_rate_type2 ∧
  m.num_type1 = p.num_type1 - (min m.agents.length p.num_type1.toNat : Nat) ∧
  m.num_type2 = p.num_type2 -
    (min (m.agents.length - p.num_type1.toNat) p.num_type2.toNat : Nat) ∧
  ∀ k, k < m.agents.length → influAlloc p k (m.agents.getD k dfltAgent)

/-- The agent record `seedCell` creates when the density draw succeeds,
written without the intermediate let bindings. -/
def seededAgent (m : Model) (r : Rngs) (q : Nat × Nat) : Agent :=
  { uid := (allocInfluencer m).1.current_id + 1,
    agent_type := if m.minority_pc < (randNpFloat (randMesaFloat r).2).1 then 0 else 1,
    is_influencer := (allocInfluencer m).2.1,
    influence_type := (allocInfluencer m).2.2.1,
    tolerance_rate := (allocInfluencer m).2.2.2, pos := q }

/-- The outcome of `seedCell` when the density draw succeeds, written without
the intermediate let bindings. -/
def seedResult (m : Model) (r : Rngs) (q : Nat × Nat) : Option (Model × Rngs) :=
  (place_agent
    { (allocInfluencer m).1 with current_id := (allocInfluencer m).1.current_id + 1 }
    (seededAgent m r q) q).map (fun m3 => (m3, (randNpFloat (randMesaFloat r).2).2))

/-- The relation preserved along the seeding scan when two runs share the
model's seedable source but may differ in numpy's source: either both runs
have failed, or the states agree on everything except the agents' types and
the remaining seedable streams coincide. -/
def SeedRel : Option (Model × Rngs) → Option (Model × Rngs) → Prop
  | none, none => True
  | some (m, r), some (m', r') =>
      NpAgnostic m m' ∧ r.mesaFloats = r'.mesaFloats ∧ r.mesaNats = r'.mesaNats
  | _, _ => False

/-! ### Concrete states used to instantiate the theorems -/

/-- Streams that always answer 0. -/
def rEmpty : Rngs := { mesaFloats := [], mesaNats := [], npFloats := [], npNats := [] }

/-- A plain ordinary agent of the given id, type and position. -/
def mkOrd (u : Nat) (t : Nat) (p : Nat × Nat) : Agent :=
  { uid := u, agent_type := t, is_influencer := false, influence_type := none,
    tolerance_rate := none, pos := p }

/-- An influencer agent of the given id, type, kind, tolerance and position. -/
def mkInf (u : Nat) (t : Nat) (i : Influence) (tol : Int) (p : Nat × Nat) : Agent :=
  { uid := u, agent_type := t, is_influencer := true, influence_type := some i,
    tolerance_rate := some tol, pos := p }

/-- A state template: a 3 by 3 grid with the given parameters and agents. -/
def mk3x3 (homophily : Int) (agents : List Agent) (grid : List ((Nat × Nat) × Nat)) : Model :=
  { height := 3, width := 3, density := 0, minority_pc := 0, homophily := homophily,
    num_type1 := 0, tolerance_rate_type1 := 0, num_type2 := 0, tolerance_rate_type2 := 0,
    majority_agent_type := 0, happy := 0, current_id := agents.length,
    agents := agents, grid := grid }

/-- An ordinary agent surrounded by two same-type ordinary neighbors, for the
satisfied branch of the ordinary decision rule. -/
def aW2 : Agent := mkOrd 1 0 (1, 1)

def mW2 : Model :=
  mk3x3 2 [aW2, mkOrd 2 0 (0, 0), mkOrd 3 0 (0, 1)]
    [((1, 1), 1), ((0, 0), 2), ((0, 1), 3)]

/-- A positive influencer of the minority type with one same-type neighbor and
tolerance 1: the combined count 2 is at or above tolerance, so it stays. -/
def aW3 : Agent := mkInf 1 1 Influence.positive 1 (1, 1)

def mW3 : Model :=
  mk3x3 3 [aW3, mkOrd 2 1 (0, 0)] [((1, 1), 1), ((0, 0), 2)]

/-- A lone ordinary agent, used to run a concrete double move. -/
def aW4 : Agent := mkOrd 1 0 (0, 0)

def mW4 : Model := mk3x3 3 [aW4] [((0, 0), 1)]

def rW4 : Rngs := { mesaFloats := [], mesaNats := [], npFloats := [], npNats := [0, 0] }

def dmW4 : Model × Rngs := (double_move mW4 1 rW4).getD (mW4, rW4)

def aW4' : Agent := (findAgent dmW4.1 1).getD dfltAgent

/-- A completely full 1 by 1 grid holding one unsatisfied ordinary agent: its
relocation request finds no empty cell. -/
def aW6 : Agent := mkOrd 1 0 (0, 0)

def mW6 : Model :=
  { height := 1, width := 1, density := 0, minority_pc := 0, homophily := 1,
    num_type1 := 0, tolerance_rate_type1 := 0, num_type2 := 0, tolerance_rate_type2 := 0,
    majority_agent_type := 0, happy := 0, current_id := 1,
    agents := [aW6], grid := [((0, 0), 1)] }

/-- A majority-type positive influencer with tolerance 2 and a single
majority-type neighbor: one distinct same-or-majority neighbor, but the code's
combined count is 2 because that neighbor is counted under both conditions. -/
def aX7 : Agent := mkInf 1 0 Influence.positive 2 (1, 1)

def mX7 : Model :=
  mk3x3 3 [aX7, mkOrd 2 0 (0, 0)] [((1, 1), 1), ((0, 0), 2)]

/-- A minority-type positive influencer with tolerance 2 and a single
same-type neighbor: the combined count is 1, one below tolerance. -/
def aW7 : Agent := mkInf 1 1 Influence.positive 2 (1, 1)

def mW7 : Model :=
  mk3x3 3 [aW7, mkOrd 2 1 (0, 0)] [((1, 1), 1), ((0, 0), 2)]

/-- An ordinary agent with a negative-influencer neighbor, used to run a
concrete double move from the step dispatcher. -/
def aW10 : Agent := mkOrd 1 0 (1, 1)

def mW10 : Model :=
  mk3x3 3 [aW10, mkInf 2 0 Influence.negative 0 (0, 0)] [((1, 1), 1), ((0, 0), 2)]

/-- Parameters that seed a full 2 by 2 grid with two positive influencers and
one negative influencer. -/
def pW5 : Params :=
  { height := 2, width := 2, density := 1, minority_pc := 0, homophily := 3,
    num_type1 := 2, tolerance_rate_type1 := 8, num_type2 := 1, tolerance_rate_type2 := 2 }

def mW5 : Model := ((construct pW5 rEmpty).getD (initModel pW5, rEmpty)).1

def rW5 : Rngs := ((construct pW5 rEmpty).getD (initModel pW5, rEmpty)).2

/-- Parameters that are invalid under the specification's documented ranges:
density and minority fraction above 1, negative homophily, negative influencer
count, negative tolerance. -/
def pX9 : Params :=
  { height := 2, width := 2, density := 2, minority_pc := 2, homophily := -1,
    num_type1 := -5, tolerance_rate_type1 := -3, num_type2 := 0, tolerance_rate_type2 := 0 }

/-- A 1 by 1 seeding run whose type draw is the only difference between two
stream pairs sharing the model's seedable source. -/
def pC1 : Params :=
  { height := 1, width := 1, density := 1, minority_pc := 0, homophily := 3,
    num_type1 := 0, tolerance_rate_type1 := 0, num_type2 := 0, tolerance_rate_type2 := 0 }

def rC1a : Rngs := { mesaFloats := [], mesaNats := [], npFloats := [1], npNats := [] }

def rC1b : Rngs := { mesaFloats := [], mesaNats := [], npFloats := [0], npNats := [] }

/-! ### Basic lemmas about the grid geometry -/

theorem mem_allCells {h w : Nat} {p : Nat × Nat} :
    p ∈ allCells h w ↔ p.1 < h ∧ p.2 < w := by
  cases p with
  | mk i j =>
    simp [allCells, List.mem_flatMap, List.mem_map, List.mem_range]

theorem allCells_nodup (h w : Nat) : (allCells h w).Nodup := by
  unfold allCells
  rw [List.nodup_flatMap]
  constructor
  · intro i _
    exact (List.nodup_range _).map (fun a b hab => by simpa using hab)
  · rw [List.pairwise_iff_forall_sublist]
    intro i j hsub
    have hij : i ≠ j := by
      intro hcon
      subst hcon
      exact (List.nodup_iff_sublist.mp (List.nodup_range _)) i hsub
    intro x hx hy
    simp only [List.mem_map] at hx hy
    obtain ⟨a, _, ha⟩ := hx
    obtain ⟨b, _, hb⟩ := hy
    apply hij
    have := ha.trans hb.symm
    exact (Prod.mk.injEq _ _ _ _).mp this.symm |>.1.symm

theorem mem_get_neighborhood {m : Model} {p q : Nat × Nat} {radius : Nat} :
    q ∈ get_neighborhood m p radius ↔
      (q.1 < m.height ∧ q.2 < m.width) ∧ q ≠ p ∧ chebDist q p ≤ radius := by
  simp [get_neighborhood, List.mem_filter, mem_allCells]

theorem mem_empties {m : Model} {p : Nat × Nat} :
    p ∈ empties m ↔ (p.1 < m.height ∧ p.2 < m.width) ∧ gridGet m p = none := by
  simp [empties, List.mem_filter, mem_allCells, is_cell_empty, Option.isNone_iff_eq_none]

theorem cons_getD_mem {α : Type} (e : α) (es : List α) (k : Nat) :
    (e :: es).getD k e ∈ e :: es := by
  by_cases hk : k < (e :: es).length
  · rw [List.getD_eq_getElem?_getD, List.getElem?_eq_getElem hk]
    exact List.getElem_mem _
  · rw [List.getD_eq_getElem?_getD, List.getElem?_eq_none (Nat.le_of_not_lt hk)]
    exact List.mem_cons_self _ _

/-! ### Lookup lemmas -/

theorem findAgent_mem {m : Model} {u : Nat} {a : Agent} (h : findAgent m u = some a) :
    a ∈ m.agents :=
  List.mem_of_find?_eq_some h

theorem findAgent_uid {m : Model} {u : Nat} {a : Agent} (h : findAgent m u = some a) :
    a.uid = u := by
  have := List.find?_some h
  simpa using this

theorem find?_key_of_mem {α β : Type} [DecidableEq β] (key : α → β) :
    ∀ (l : List α) (a : α), (l.map key).Nodup → a ∈ l →
      l.find? (fun x => decide (key x = key a)) = some a := by
  intro l
  induction l with
  | nil => intro a _ ha; cases ha
  | cons b t ih =>
    intro a hnd ha
    rw [List.find?_cons]
    rcases List.mem_cons.mp ha with hb | hl
    · subst hb
      simp
    · by_cases hba : key b = key a
      · exfalso
        rw [List.map_cons, List.nodup_cons] at hnd
        exact hnd.1 (hba ▸ List.mem_map_of_mem _ hl)
      · have hdec : decide (key b = key a) = false := by simpa using hba
        rw [hdec]
        exact ih a (by rw [List.map_cons, List.nodup_cons] at hnd; exact hnd.2) hl

theorem findAgent_of_mem {m : Model} {a : Agent} (hnd : uidsNodup m) (ha : a ∈ m.agents) :
    findAgent m a.uid = some a := by
  unfold uidsNodup at hnd
  exact find?_key_of_mem (fun x => x.uid) m.agents a hnd ha

theorem gridGet_mem {m : Model} {p : Nat × Nat} {u : Nat} (h : gridGet m p = some u) :
    (p, u) ∈ m.grid := by
  unfold gridGet at h
  obtain ⟨e, he, heq⟩ := Option.map_eq_some'.mp h
  have h1 : e.1 = p := by simpa using List.find?_some he
  have h2 : e ∈ m.grid := List.mem_of_find?_eq_some he
  have : e = (p, u) := by
    cases e
    simp only at h1 heq
    rw [h1, heq]
  exact this ▸ h2

theorem gridGet_eq_none_iff {m : Model} {p : Nat × Nat} :
    gridGet m p = none ↔ ∀ e ∈ m.grid, e.1 ≠ p := by
  unfold gridGet
  rw [Option.map_eq_none', List.find?_eq_none]
  simp

theorem gridGet_of_mem {m : Model} {p : Nat × Nat} {u : Nat} (hnd : cellsNodup m)
    (h : (p, u) ∈ m.grid) : gridGet m p = some u := by
  unfold gridGet
  unfold cellsNodup at hnd
  rw [find?_key_of_mem (fun e => e.1) m.grid (p, u) hnd h]
  rfl

/-! ### Characterization of the relocation primitives -/

theorem move_agent_eq_some_iff {m m' : Model} {u : Nat} {p : Nat × Nat} :
    move_agent m u p = some m' ↔
      inBounds m p = true ∧ is_cell_empty m p = true ∧
        m' = setAgentPos
          { m with grid := (p, u) :: m.grid.filter (fun e => decide (e.2 ≠ u)) } u p := by
  unfold move_agent
  constructor
  · intro h
    split at h
    · rename_i hcond
      rw [Bool.and_eq_true] at hcond
      exact ⟨hcond.1, hcond.2, (Option.some_inj.mp h).symm⟩
    · cases h
  · rintro ⟨h1, h2, h3⟩
    rw [if_pos (by rw [h1, h2]; rfl), h3]

theorem move_agent_of_good {m : Model} {u : Nat} {p : Nat × Nat}
    (hb : inBounds m p = true) (he : is_cell_empty m p = true) :
    move_agent m u p =
      some (setAgentPos
        { m with grid := (p, u) :: m.grid.filter (fun e => decide (e.2 ≠ u)) } u p) :=
  move_agent_eq_some_iff.mpr ⟨hb, he, rfl⟩

theorem findAgent_map_of_uid {m : Model} {f : Agent → Agent}
    (hf : ∀ a, (f a).uid = a.uid) (u : Nat) :
    findAgent { m with agents := m.agents.map f } u = (findAgent m u).map f := by
  unfold findAgent
  simp only
  rw [List.find?_map]
  have heq : ((fun a : Agent => decide (a.uid = u)) ∘ f) = (fun a : Agent => decide (a.uid = u)) := by
    funext a
    simp [Function.comp, hf]
  rw [heq]

theorem findAgent_setAgentPos {m : Model} {u v : Nat} {p : Nat × Nat} :
    findAgent (setAgentPos m u p) v =
      (findAgent m v).map (fun a => if a.uid = u then { a with pos := p } else a) := by
  unfold setAgentPos
  exact findAgent_map_of_uid (fun a => by by_cases h : a.uid = u <;> simp [h]) v

theorem move_to_empty_of_full {m : Model} {u : Nat} {r : Rngs} (h : empties m = []) :
    move_to_empty m u r = (m, r) := by
  unfold move_to_empty
  rw [h]

theorem move_to_empty_spec {m : Model} {u : Nat} {r : Rngs} (hne : empties m ≠ []) :
    ∃ q ∈ empties m, ∃ m2, move_agent m u q = some m2 ∧
      move_to_empty m u r = (m2, { r with mesaNats := r.mesaNats.tail }) := by
  obtain ⟨e, es, hemp⟩ : ∃ e es, empties m = e :: es := by
    cases h : empties m with
    | nil => exact absurd h hne
    | cons e es => exact ⟨e, es, rfl⟩
  have hmem : (e :: es).getD (randMesaNat r (e :: es).length).1 e ∈ empties m := by
    rw [hemp]
    exact cons_getD_mem e es _
  have hprops := mem_empties.mp hmem
  have hb : inBounds m ((e :: es).getD (randMesaNat r (e :: es).length).1 e) = true := by
    unfold inBounds
    rw [decide_eq_true hprops.1.1, decide_eq_true hprops.1.2]
    rfl
  have hce : is_cell_empty m ((e :: es).getD (randMesaNat r (e :: es).length).1 e) = true := by
    unfold is_cell_empty
    rw [hprops.2]
    rfl
  refine ⟨_, hmem, _, move_agent_of_good hb hce, ?_⟩
  unfold move_to_empty
  rw [hemp]
  show ((move_agent m u ((e :: es).getD (randMesaNat r (e :: es).length).1 e)).getD m,
      (randMesaNat r (e :: es).length).2) = _
  rw [move_agent_of_good hb hce]
  rfl

theorem findAgent_move_agent {m m' : Model} {u v : Nat} {p : Nat × Nat}
    (h : move_agent m u p = some m') :
    findAgent m' v =
      (findAgent m v).map (fun a => if a.uid = u then { a with pos := p } else a) := by
  obtain ⟨-, -, hm⟩ := move_agent_eq_some_iff.mp h
  subst hm
  exact findAgent_setAgentPos

theorem move_agent_happy {m m' : Model} {u : Nat} {p : Nat × Nat}
    (h : move_agent m u p = some m') : m'.happy = m.happy := by
  obtain ⟨-, -, hm⟩ := move_agent_eq_some_iff.mp h
  subst hm
  rfl

/-! ### Branch characterization of the agent step (src/model.py lines 57-95) -/

theorem stepAgent_ordinary {m : Model} {u : Nat} {a : Agent} {r : Rngs}
    (ha : findAgent m u = some a) (hord : a.is_influencer = false) :
    stepAgent m u r = move_based_on_influence_and_tolerance m a r := by
  unfold stepAgent
  rw [ha]
  show (if a.is_influencer = true then move_based_on_tolerance m a r
    else move_based_on_influence_and_tolerance m a r) = _
  rw [hord]
  rfl

theorem stepAgent_influencer {m : Model} {u : Nat} {a : Agent} {r : Rngs}
    (ha : findAgent m u = some a) (hinf : a.is_influencer = true) :
    stepAgent m u r = move_based_on_tolerance m a r := by
  unfold stepAgent
  rw [ha]
  show (if a.is_influencer = true then move_based_on_tolerance m a r
    else move_based_on_influence_and_tolerance m a r) = _
  rw [hinf]
  rfl

theorem mbit_happy {m : Model} {a : Agent} {r : Rngs}
    (hh : m.homophily ≤ (ordSimilar m a : Int)) :
    move_based_on_influence_and_tolerance m a r = some ({ m with happy := m.happy + 1 }, r) := by
  unfold move_based_on_influence_and_tolerance
  rw [if_pos hh]

theorem mbit_positive {m : Model} {a : Agent} {r : Rngs}
    (hh : ¬ m.homophily ≤ (ordSimilar m a : Int))
    (hp : hasInfluenceKind m a Influence.positive = true) :
    move_based_on_influence_and_tolerance m a r = some (m, r) := by
  unfold move_based_on_influence_and_tolerance
  rw [if_neg hh, if_pos hp]

theorem mbit_negative {m : Model} {a : Agent} {r : Rngs}
    (hh : ¬ m.homophily ≤ (ordSimilar m a : Int))
    (hp : hasInfluenceKind m a Influence.positive = false)
    (hn : hasInfluenceKind m a Influence.negative = true) :
    move_based_on_influence_and_tolerance m a r = double_move m a.uid r := by
  unfold move_based_on_influence_and_tolerance
  rw [if_neg hh, hp, hn]
  rfl

theorem mbit_relocate {m : Model} {a : Agent} {r : Rngs}
    (hh : ¬ m.homophily ≤ (ordSimilar m a : Int))
    (hp : hasInfluenceKind m a Influence.positive = false)
    (hn : hasInfluenceKind m a Influence.negative = false) :
    move_based_on_influence_and_tolerance m a r = some (move_to_empty m a.uid r) := by
  unfold move_based_on_influence_and_tolerance
  rw [if_neg hh, hp, hn]
  rfl

theorem mbt_below {m : Model} {a : Agent} {r : Rngs} {t : Int}
    (ht : a.tolerance_rate = some t) (hlt : (tolCombined m a : Int) < t) :
    move_based_on_tolerance m a r = some (move_to_empty m a.uid r) := by
  unfold move_based_on_tolerance
  rw [ht]
  show (if (tolSimilarCount m a : Int) + (tolMajorityCount m a : Int) < t
    then some (move_to_empty m a.uid r) else some (m, r)) = _
  have : (tolSimilarCount m a : Int) + (tolMajorityCount m a : Int) < t := by
    have : ((tolCombined m a : Nat) : Int) = (tolSimilarCount m a : Int) + (tolMajorityCount m a : Int) := by
      unfold tolCombined
      push_cast
      ring
    omega
  rw [if_pos this]

theorem mbt_at_or_above {m : Model} {a : Agent} {r : Rngs} {t : Int}
    (ht : a.tolerance_rate = some t) (hge : t ≤ (tolCombined m a : Int)) :
    move_based_on_tolerance m a r = some (m, r) := by
  unfold move_based_on_tolerance
  rw [ht]
  show (if (tolSimilarCount m a : Int) + (tolMajorityCount m a : Int) < t
    then some (move_to_empty m a.uid r) else some (m, r)) = _
  have : ¬ (tolSimilarCount m a : Int) + (tolMajorityCount m a : Int) < t := by
    have : ((tolCombined m a : Nat) : Int) = (tolSimilarCount m a : Int) + (tolMajorityCount m a : Int) := by
      unfold tolCombined
      push_cast
      ring
    omega
  rw [if_neg this]

/-- Where a random relocation lands: on some empty cell of the pre-move grid,
with the happy counter untouched. -/
theorem move_to_empty_lands {m : Model} {u : Nat} {a : Agent} {r : Rngs}
    (hne : empties m ≠ []) (ha : findAgent m u = some a) :
    ∃ q ∈ empties m, posOf (move_to_empty m u r).1 u = some q ∧
      (move_to_empty m u r).1.happy = m.happy := by
  obtain ⟨q, hq, m2, hmove, heq⟩ := move_to_empty_spec (u := u) (r := r) hne
  refine ⟨q, hq, ?_, ?_⟩
  · rw [heq]
    unfold posOf
    rw [findAgent_move_agent hmove, ha]
    simp [findAgent_uid ha]
  · rw [heq]
    exact move_agent_happy hmove

/-- A random relocation from an occupied cell always leaves that cell: the
agent's own cell is occupied, hence not among the empty cells. -/
theorem move_to_empty_moves_off {m : Model} {u : Nat} {a : Agent} {r : Rngs}
    (hne : empties m ≠ []) (ha : findAgent m u = some a)
    (hcons : gridGet m a.pos = some a.uid) :
    posOf (move_to_empty m u r).1 u ≠ some a.pos := by
  obtain ⟨q, hq, hpos, -⟩ := move_to_empty_lands hne ha (r := r)
  rw [hpos]
  intro hcon
  have hqa : q = a.pos := by simpa using hcon
  have := (mem_empties.mp hq).2
  rw [hqa, hcons] at this
  cases this

theorem move_to_empty_happy {m : Model} {u : Nat} {r : Rngs} :
    (move_to_empty m u r).1.happy = m.happy := by
  by_cases hne : empties m = []
  · rw [move_to_empty_of_full hne]
  · obtain ⟨q, hq, m2, hmove, heq⟩ := move_to_empty_spec (u := u) (r := r) hne
    rw [heq]
    exact move_agent_happy hmove

/-! ### C2: the ordinary agent's decision procedure -/

/-- C2: an activated ordinary agent computes the count of non-influencer
radius-1 Moore neighbors sharing its type; at or above the homophily threshold
it increments `happy` by exactly 1 and keeps its position; below the
threshold, a positive-influence neighbor makes it stay without incrementing
`happy`; otherwise a negative-influence neighbor triggers the double move;
otherwise it relocates to a random empty cell anywhere on the grid, landing on
a cell that was empty, with `happy` untouched. -/
theorem C2_ordinary_decision (m : Model) (a : Agent) (r : Rngs)
    (ha : findAgent m a.uid = some a) (hord : a.is_influencer = false) :
    (m.homophily ≤ (ordSimilar m a : Int) →
        stepAgent m a.uid r = some ({ m with happy := m.happy + 1 }, r)) ∧
    ((ordSimilar m a : Int) < m.homophily →
        hasInfluenceKind m a Influence.positive = true →
        stepAgent m a.uid r = some (m, r)) ∧
    ((ordSimilar m a : Int) < m.homophily →
        hasInfluenceKind m a Influence.positive = false →
        hasInfluenceKind m a Influence.negative = true →
        stepAgent m a.uid r = double_move m a.uid r) ∧
    ((ordSimilar m a : Int) < m.homophily →
        hasInfluenceKind m a Influence.positive = false →
        hasInfluenceKind m a Influence.negative = false →
        stepAgent m a.uid r = some (move_to_empty m a.uid r) ∧
        (move_to_empty m a.uid r).1.happy = m.happy ∧
        (empties m ≠ [] → ∃ q ∈ empties m,
          posOf (move_to_empty m a.uid r).1 a.uid = some q)) := by
  rw [stepAgent_ordinary ha hord]
  refine ⟨?_, ?_, ?_, ?_⟩
  · intro hh
    exact mbit_happy hh
  · intro hh hp
    exact mbit_positive (by omega) hp
  · intro hh hp hn
    exact mbit_negative (by omega) hp hn
  · intro hh hp hn
    refine ⟨mbit_relocate (by omega) hp hn, move_to_empty_happy, ?_⟩
    intro hne
    obtain ⟨q, hq, hpos, -⟩ := move_to_empty_lands hne ha (r := r)
    exact ⟨q, hq, hpos⟩

/-- Witness for C2: in the concrete state `mW2` the central agent has two
same-type ordinary neighbors and homophily 2, so its step increments `happy`
and leaves the state otherwise unchanged. -/
theorem C2_ordinary_decision_witness :
    stepAgent mW2 1 rEmpty = some ({ mW2 with happy := mW2.happy + 1 }, rEmpty) :=
  (C2_ordinary_decision mW2 aW2 rEmpty (by decide) (by decide)).1 (by decide)

/-! ### C6: relocation with no empty cell -/

/-- C6: when an agent's step requests a relocation to a random empty cell but
the grid has no empty cell, the relocation is a no-op: the state (and in
particular the agent's position) is unchanged and the step returns normally,
both for an influencer below tolerance and for an unsatisfied ordinary agent
with no influencer neighbor. -/
theorem C6_full_grid_noop (m : Model) (u : Nat) (a : Agent) (r : Rngs)
    (ha : findAgent m u = some a) (hfull : empties m = []) :
    move_to_empty m u r = (m, r) ∧
    (∀ t : Int, a.is_influencer = true → a.tolerance_rate = some t →
        (tolCombined m a : Int) < t → stepAgent m u r = some (m, r)) ∧
    (a.is_influencer = false → (ordSimilar m a : Int) < m.homophily →
        hasInfluenceKind m a Influence.positive = false →
        hasInfluenceKind m a Influence.negative = false →
        stepAgent m u r = some (m, r)) := by
  have hu := findAgent_uid ha
  subst hu
  have hnoop : move_to_empty m a.uid r = (m, r) := move_to_empty_of_full hfull
  refine ⟨hnoop, ?_, ?_⟩
  · intro t hinf ht hlt
    rw [stepAgent_influencer ha hinf, mbt_below ht hlt, hnoop]
  · intro hord hh hp hn
    rw [stepAgent_ordinary ha hord, mbit_relocate (by omega) hp hn, hnoop]

/-- Witness for C6: a full 1 by 1 grid whose single ordinary agent is
unsatisfied and has no influencer neighbor; its step completes and leaves the
state unchanged. -/
theorem C6_full_grid_noop_witness :
    stepAgent mW6 1 rEmpty = some (mW6, rEmpty) :=
  (C6_full_grid_noop mW6 1 aW6 rEmpty (by decide) (by decide)).2.2 (by decide) (by decide)
    (by decide) (by decide)

/-! ### C7: the influencer tolerance boundary -/

/-- Counterexample to C7: in `mX7` the majority-type positive influencer has
exactly one distinct same-type-or-majority neighbor and tolerance 2, so under
the claim's distinct counting it sits at tolerance minus 1 and should always
move; but the code counts that neighbor under both conditions, reaching the
tolerance of 2, and the step leaves the state unchanged even though empty
cells exist. -/
theorem C7_distinct_count_counterexample :
    sameOrMajorityDistinct mX7 aX7 = aX7.tolerance_rate.getD 0 - 1 ∧
    empties mX7 ≠ [] ∧
    stepAgent mX7 1 rEmpty = some (mX7, rEmpty) := by
  refine ⟨by decide, by decide, by decide⟩

/-- C7 (amended): with the combined count computed as the code does (the
same-type count plus the majority-type count, a neighbor satisfying both
counted twice), a positive influencer whose combined count equals tolerance
minus 1 always moves off its original cell that tick provided an empty cell
exists, and one whose combined count equals its tolerance never moves. -/
theorem C7_influencer_tolerance_boundary (m : Model) (a : Agent) (r : Rngs) (t : Int)
    (ha : findAgent m a.uid = some a) (hinf : a.is_influencer = true)
    (ht : a.tolerance_rate = some t) (hcons : gridGet m a.pos = some a.uid) :
    ((tolCombined m a : Int) = t - 1 → empties m ≠ [] →
        stepAgent m a.uid r = some (move_to_empty m a.uid r) ∧
        posOf (move_to_empty m a.uid r).1 a.uid ≠ some a.pos) ∧
    ((tolCombined m a : Int) = t → stepAgent m a.uid r = some (m, r)) := by
  constructor
  · intro hc hne
    refine ⟨?_, move_to_empty_moves_off hne ha hcons⟩
    rw [stepAgent_influencer ha hinf, mbt_below ht (by omega)]
  · intro hc
    rw [stepAgent_influencer ha hinf, mbt_at_or_above ht (by omega)]

/-- Witness for the amended C7: a minority-type positive influencer with one
same-type neighbor and tolerance 2 (combined count 1) moves off its cell. -/
theorem C7_influencer_tolerance_boundary_witness :
    stepAgent mW7 1 rEmpty = some (move_to_empty mW7 1 rEmpty) ∧
    posOf (move_to_empty mW7 1 rEmpty).1 1 ≠ some (1, 1) :=
  (C7_influencer_tolerance_boundary mW7 aW7 rEmpty 2 (by decide) (by decide)
    (by decide) (by decide)).1 (by decide) (by decide)

/-! ### Noninterference: the influencer rule never reads influence attributes -/

theorem mbt_no_tolerance {m : Model} {a : Agent} {r : Rngs}
    (ht : a.tolerance_rate = none) : move_based_on_tolerance m a r = none := by
  unfold move_based_on_tolerance
  rw [ht]

theorem countP_map_eq {l : List Agent} {f : Agent → Agent} {p : Agent → Bool}
    (hp : ∀ a, p (f a) = p a) : (l.map f).countP p = l.countP p := by
  rw [List.countP_map]
  exact List.countP_congr (fun a _ => by simp [Function.comp, hp a])

theorem eraseFn_uid (u : Nat) (x : Agent) :
    ((fun x => if x.uid = u then x else stripInfluence x) x).uid = x.uid := by
  by_cases h : x.uid = u <;> simp [h, stripInfluence]

theorem eraseFn_pos (u : Nat) (x : Agent) :
    ((fun x => if x.uid = u then x else stripInfluence x) x).pos = x.pos := by
  by_cases h : x.uid = u <;> simp [h, stripInfluence]

theorem eraseFn_type (u : Nat) (x : Agent) :
    ((fun x => if x.uid = u then x else stripInfluence x) x).agent_type = x.agent_type := by
  by_cases h : x.uid = u <;> simp [h, stripInfluence]

theorem get_neighbors_erase (m : Model) (u : Nat) (p : Nat × Nat) (radius : Nat) :
    get_neighbors (eraseOthersInfluence m u) p radius =
      (get_neighbors m p radius).map (fun x => if x.uid = u then x else stripInfluence x) := by
  unfold get_neighbors
  rw [List.map_filterMap]
  have hnb : get_neighborhood (eraseOthersInfluence m u) p radius =
      get_neighborhood m p radius := rfl
  rw [hnb]
  have hfun : (fun q => (gridGet (eraseOthersInfluence m u) q).bind
        (fun v => findAgent (eraseOthersInfluence m u) v)) =
      (fun q => ((gridGet m q).bind (fun v => findAgent m v)).map
        (fun x => if x.uid = u then x else stripInfluence x)) := by
    funext q
    have hg : gridGet (eraseOthersInfluence m u) q = gridGet m q := rfl
    rw [hg]
    have hfa : ∀ v, findAgent (eraseOthersInfluence m u) v = (findAgent m v).map
        (fun x => if x.uid = u then x else stripInfluence x) := by
      intro v
      exact findAgent_map_of_uid (eraseFn_uid u) v
    cases gridGet m q with
    | none => rfl
    | some v =>
      show findAgent (eraseOthersInfluence m u) v = _
      rw [hfa v]
      rfl
  rw [hfun]

theorem tolSimilarCount_erase (m : Model) (u : Nat) (a : Agent) :
    tolSimilarCount (eraseOthersInfluence m u) a = tolSimilarCount m a := by
  unfold tolSimilarCount
  rw [get_neighbors_erase]
  exact countP_map_eq (fun x => by rw [eraseFn_type])

theorem tolMajorityCount_erase (m : Model) (u : Nat) (a : Agent) :
    tolMajorityCount (eraseOthersInfluence m u) a = tolMajorityCount m a := by
  unfold tolMajorityCount
  rw [get_neighbors_erase]
  have hmaj : (eraseOthersInfluence m u).majority_agent_type = m.majority_agent_type := rfl
  rw [hmaj]
  exact countP_map_eq (fun x => by rw [eraseFn_type])

theorem stepObs_erase_base (m : Model) (u : Nat) (r : Rngs) :
    stepObs (eraseOthersInfluence m u, r) = stepObs (m, r) := by
  unfold stepObs eraseOthersInfluence
  simp only [List.map_map]
  have : ((fun a : Agent => (a.uid, a.pos)) ∘
      (fun x => if x.uid = u then x else stripInfluence x)) =
      (fun a : Agent => (a.uid, a.pos)) := by
    funext x
    simp [Function.comp, eraseFn_uid u x, eraseFn_pos u x]
  rw [this]

theorem stepObs_erase_setpos (m : Model) (u w : Nat) (q : Nat × Nat)
    (g : List ((Nat × Nat) × Nat)) (r : Rngs) :
    stepObs (setAgentPos { eraseOthersInfluence m u with grid := g } w q, r) =
      stepObs (setAgentPos { m with grid := g } w q, r) := by
  unfold stepObs setAgentPos eraseOthersInfluence
  simp only [List.map_map]
  have : ((fun a : Agent => (a.uid, a.pos)) ∘
      ((fun a => if a.uid = w then { a with pos := q } else a) ∘
        (fun x => if x.uid = u then x else stripInfluence x))) =
      ((fun a : Agent => (a.uid, a.pos)) ∘
        (fun a => if a.uid = w then { a with pos := q } else a)) := by
    funext x
    have hu := eraseFn_uid u x
    have hp := eraseFn_pos u x
    simp only [Function.comp]
    by_cases hw : x.uid = w
    · rw [if_pos (hu.trans (by rw [hw])), if_pos hw]
      simp [hu]
    · rw [if_neg (by rw [hu]; exact hw), if_neg hw]
      simp [hu, hp]
  rw [this]

theorem tolCombined_erase (m : Model) (u : Nat) (a : Agent) :
    tolCombined (eraseOthersInfluence m u) a = tolCombined m a := by
  unfold tolCombined
  rw [tolSimilarCount_erase, tolMajorityCount_erase]

theorem move_to_empty_erase_obs (m : Model) (u w : Nat) (r : Rngs) :
    stepObs (move_to_empty (eraseOthersInfluence m u) w r) =
      stepObs (move_to_empty m w r) := by
  cases h : empties m with
  | nil =>
    rw [move_to_empty_of_full (m := eraseOthersInfluence m u) h,
      move_to_empty_of_full h]
    exact stepObs_erase_base m u r
  | cons e es =>
    have hT : (e :: es).getD (randMesaNat r (e :: es).length).1 e ∈ empties m := by
      rw [h]
      exact cons_getD_mem e es _
    have hprops := mem_empties.mp hT
    have hb : inBounds m ((e :: es).getD (randMesaNat r (e :: es).length).1 e) = true := by
      unfold inBounds
      rw [decide_eq_true hprops.1.1, decide_eq_true hprops.1.2]
      rfl
    have hc : is_cell_empty m ((e :: es).getD (randMesaNat r (e :: es).length).1 e) = true := by
      unfold is_cell_empty
      rw [hprops.2]
      rfl
    have hb' : inBounds (eraseOthersInfluence m u)
        ((e :: es).getD (randMesaNat r (e :: es).length).1 e) = true := hb
    have hc' : is_cell_empty (eraseOthersInfluence m u)
        ((e :: es).getD (randMesaNat r (e :: es).length).1 e) = true := hc
    have hred : move_to_empty m w r =
        ((move_agent m w ((e :: es).getD (randMesaNat r (e :: es).length).1 e)).getD m,
          (randMesaNat r (e :: es).length).2) := by
      unfold move_to_empty
      rw [h]
    have hred' : move_to_empty (eraseOthersInfluence m u) w r =
        ((move_agent (eraseOthersInfluence m u) w
            ((e :: es).getD (randMesaNat r (e :: es).length).1 e)).getD (eraseOthersInfluence m u),
          (randMesaNat r (e :: es).length).2) := by
      unfold move_to_empty
      have hemp : empties (eraseOthersInfluence m u) = empties m := rfl
      rw [hemp, h]
    rw [hred, hred', move_agent_of_good hb hc, move_agent_of_good hb' hc']
    simp only [Option.getD_some]
    exact stepObs_erase_setpos m u w _ _ _

theorem stepAgent_influencer_erase_obs (m : Model) (a : Agent) (r : Rngs)
    (ha : findAgent m a.uid = some a) (hinf : a.is_influencer = true) :
    (stepAgent (eraseOthersInfluence m a.uid) a.uid r).map stepObs =
      (stepAgent m a.uid r).map stepObs := by
  have ha' : findAgent (eraseOthersInfluence m a.uid) a.uid = some a := by
    have := findAgent_map_of_uid (m := m) (eraseFn_uid a.uid) a.uid
    unfold eraseOthersInfluence
    rw [this, ha]
    simp
  rw [stepAgent_influencer ha' hinf, stepAgent_influencer ha hinf]
  cases ht : a.tolerance_rate with
  | none =>
    rw [mbt_no_tolerance ht, mbt_no_tolerance ht]
  | some t =>
    by_cases hlt : (tolCombined m a : Int) < t
    · rw [mbt_below ht hlt, mbt_below ht (by rw [tolCombined_erase]; exact hlt)]
      simp only [Option.map_some']
      exact congrArg some (move_to_empty_erase_obs m a.uid a.uid r)
    · rw [mbt_at_or_above ht (show t ≤ (tolCombined m a : Int) by omega),
        mbt_at_or_above ht (by rw [tolCombined_erase]; omega)]
      simp only [Option.map_some']
      exact congrArg some (stepObs_erase_base m a.uid r)

/-! ### C3: the influencer's decision procedure -/

/-- C3: an activated influencer sums the count of radius-1 Moore neighbors
sharing its own type and the count of neighbors of the fixed majority type (a
neighbor satisfying both contributes to both counts); strictly below its
tolerance it relocates to a random empty cell anywhere on the grid, otherwise
it stays; its step never changes the happy counter, and its observable outcome
is unchanged when every other agent's influence attributes are erased (it
never reads them). -/
theorem C3_influencer_decision (m : Model) (a : Agent) (r : Rngs) (t : Int)
    (ha : findAgent m a.uid = some a) (hinf : a.is_influencer = true)
    (ht : a.tolerance_rate = some t) :
    ((tolCombined m a : Int) < t →
        stepAgent m a.uid r = some (move_to_empty m a.uid r) ∧
        (empties m ≠ [] → ∃ q ∈ empties m,
          posOf (move_to_empty m a.uid r).1 a.uid = some q)) ∧
    (t ≤ (tolCombined m a : Int) → stepAgent m a.uid r = some (m, r)) ∧
    (∀ m' r', stepAgent m a.uid r = some (m', r') → m'.happy = m.happy) ∧
    (stepAgent (eraseOthersInfluence m a.uid) a.uid r).map stepObs =
      (stepAgent m a.uid r).map stepObs := by
  refine ⟨?_, ?_, ?_, stepAgent_influencer_erase_obs m a r ha hinf⟩
  · intro hlt
    refine ⟨?_, ?_⟩
    · rw [stepAgent_influencer ha hinf, mbt_below ht hlt]
    · intro hne
      obtain ⟨q, hq, hpos, -⟩ := move_to_empty_lands hne ha (r := r)
      exact ⟨q, hq, hpos⟩
  · intro hge
    rw [stepAgent_influencer ha hinf, mbt_at_or_above ht hge]
  · intro m' r' hstep
    rw [stepAgent_influencer ha hinf] at hstep
    by_cases hlt : (tolCombined m a : Int) < t
    · rw [mbt_below ht hlt] at hstep
      have heq := Option.some_inj.mp hstep
      have h1 : (move_to_empty m a.uid r).1 = m' := congrArg Prod.fst heq
      rw [← h1]
      exact move_to_empty_happy
    · rw [mbt_at_or_above ht (by omega)] at hstep
      have heq := Option.some_inj.mp hstep
      have h1 : m = m' := congrArg Prod.fst heq
      rw [← h1]

/-- Witness for C3: the influencer in `mW3` has combined count 2 at or above
its tolerance 1, so it stays put. -/
theorem C3_influencer_decision_witness :
    stepAgent mW3 1 rEmpty = some (mW3, rEmpty) :=
  (C3_influencer_decision mW3 aW3 rEmpty 1 (by decide) (by decide) (by decide)).2.1
    (by decide)

/-! ### C4 and C10: the double move -/

theorem chebDist_self (p : Nat × Nat) : chebDist p p = 0 := by
  unfold chebDist
  rw [Nat.dist_self, Nat.dist_self]
  exact Nat.max_self 0

theorem chebDist_triangle (p q s : Nat × Nat) :
    chebDist p s ≤ chebDist p q + chebDist q s := by
  unfold chebDist
  apply max_le
  · calc Nat.dist p.1 s.1 ≤ Nat.dist p.1 q.1 + Nat.dist q.1 s.1 :=
        Nat.dist.triangle_inequality _ _ _
      _ ≤ _ := Nat.add_le_add (le_max_left _ _) (le_max_left _ _)
  · calc Nat.dist p.2 s.2 ≤ Nat.dist p.2 q.2 + Nat.dist q.2 s.2 :=
        Nat.dist.triangle_inequality _ _ _
      _ ≤ _ := Nat.add_le_add (le_max_right _ _) (le_max_right _ _)

theorem select_new_position_mem {l : List (Nat × Nat)} {r : Rngs} {q : Nat × Nat}
    (h : (select_new_position l r).1 = some q) : q ∈ l := by
  cases l with
  | nil => cases h
  | cons e es =>
    have : (e :: es).getD (randNpNat r (e :: es).length).1 e = q := by
      have := Option.some_inj.mp h
      exact this
    rw [← this]
    exact cons_getD_mem e es _

theorem double_move_once_sel_none {m : Model} {u : Nat} {r : Rngs} {a : Agent}
    (ha : findAgent m u = some a)
    (hsel : (select_new_position (get_neighborhood m a.pos 2) r).1 = none) :
    double_move_once m u r = none := by
  unfold double_move_once
  rw [ha]
  show (match (select_new_position (get_neighborhood m a.pos 2) r).1 with
       | none => (none : Option (Model × Rngs))
       | some q =>
         if is_cell_empty m q then
           (move_agent m u q).map
             (fun m2 => (m2, (select_new_position (get_neighborhood m a.pos 2) r).2))
         else some (m, (select_new_position (get_neighborhood m a.pos 2) r).2)) = none
  rw [hsel]

theorem double_move_once_sel_some {m : Model} {u : Nat} {r : Rngs} {a : Agent} {q : Nat × Nat}
    (ha : findAgent m u = some a)
    (hsel : (select_new_position (get_neighborhood m a.pos 2) r).1 = some q) :
    double_move_once m u r =
      (if is_cell_empty m q then
        (move_agent m u q).map
          (fun m2 => (m2, (select_new_position (get_neighborhood m a.pos 2) r).2))
      else some (m, (select_new_position (get_neighborhood m a.pos 2) r).2)) := by
  unfold double_move_once
  rw [ha]
  show (match (select_new_position (get_neighborhood m a.pos 2) r).1 with
       | none => (none : Option (Model × Rngs))
       | some q =>
         if is_cell_empty m q then
           (move_agent m u q).map
             (fun m2 => (m2, (select_new_position (get_neighborhood m a.pos 2) r).2))
         else some (m, (select_new_position (get_neighborhood m a.pos 2) r).2)) = _
  rw [hsel]

theorem double_move_once_eq {m : Model} {u : Nat} {r : Rngs} {a : Agent}
    (ha : findAgent m u = some a) :
    double_move_once m u r =
      (match (select_new_position (get_neighborhood m a.pos 2) r).1 with
       | none => none
       | some q =>
         if is_cell_empty m q then
           (move_agent m u q).map
             (fun m2 => (m2, (select_new_position (get_neighborhood m a.pos 2) r).2))
         else some (m, (select_new_position (get_neighborhood m a.pos 2) r).2)) := by
  cases hsel : (select_new_position (get_neighborhood m a.pos 2) r).1 with
  | none => rw [double_move_once_sel_none ha hsel]
  | some q => rw [double_move_once_sel_some ha hsel]

/-- One sub-move keeps the grid dimensions, keeps the agent registered, and
moves it by Chebyshev distance at most 2 (onto a radius-2 neighborhood cell or
not at all). -/
theorem double_move_once_out {m m2 : Model} {u : Nat} {r r2 : Rngs} {a : Agent}
    (ha : findAgent m u = some a) (h : double_move_once m u r = some (m2, r2)) :
    m2.height = m.height ∧ m2.width = m.width ∧
    ∃ a2, findAgent m2 u = some a2 ∧
      (a2.pos = a.pos ∨ a2.pos ∈ get_neighborhood m a.pos 2) ∧
      chebDist a2.pos a.pos ≤ 2 := by
  cases hsel : (select_new_position (get_neighborhood m a.pos 2) r).1 with
  | none => rw [double_move_once_sel_none ha hsel] at h; cases h
  | some q =>
    rw [double_move_once_sel_some ha hsel] at h
    have hq : q ∈ get_neighborhood m a.pos 2 := select_new_position_mem hsel
    have hqd := mem_get_neighborhood.mp hq
    by_cases hce : is_cell_empty m q = true
    · rw [if_pos hce] at h
      obtain ⟨m3, hm3, hpair⟩ := Option.map_eq_some'.mp h
      have hm2 : m3 = m2 := congrArg Prod.fst hpair
      subst hm2
      obtain ⟨-, -, hform⟩ := move_agent_eq_some_iff.mp hm3
      refine ⟨by rw [hform]; rfl, by rw [hform]; rfl, ?_⟩
      refine ⟨{ a with pos := q }, ?_, Or.inr hq, ?_⟩
      · rw [findAgent_move_agent hm3, ha]
        simp [findAgent_uid ha]
      · show chebDist q a.pos ≤ 2
        exact hqd.2.2
    · rw [if_neg hce] at h
      have hm2 : m = m2 := congrArg Prod.fst (Option.some_inj.mp h)
      subst hm2
      refine ⟨rfl, rfl, a, ha, Or.inl rfl, ?_⟩
      rw [chebDist_self]
      exact Nat.zero_le 2

/-- C4: the double move performs exactly two successive sub-moves; each
sub-move draws one uniformly random position from the radius-2 Moore
neighborhood of the agent's position current at that sub-move and relocates
there only when that position is empty, skipping the sub-move otherwise;
consequently the agent ends at Chebyshev distance at most 4 from its start. -/
theorem C4_double_move_bound (m : Model) (u : Nat) (r : Rngs) (m' : Model) (r' : Rngs)
    (a a' : Agent) (ha : findAgent m u = some a)
    (h : double_move m u r = some (m', r')) (ha' : findAgent m' u = some a') :
    double_move m u r =
      (double_move_once m u r).bind (fun mr => double_move_once mr.1 u mr.2) ∧
    (∀ (mm : Model) (rr : Rngs) (b : Agent), findAgent mm u = some b →
      double_move_once mm u rr =
        (match (select_new_position (get_neighborhood mm b.pos 2) rr).1 with
         | none => none
         | some q =>
           if is_cell_empty mm q then
             (move_agent mm u q).map
               (fun m2 => (m2, (select_new_position (get_neighborhood mm b.pos 2) rr).2))
           else some (mm, (select_new_position (get_neighborhood mm b.pos 2) rr).2))) ∧
    chebDist a'.pos a.pos ≤ 4 := by
  refine ⟨rfl, fun mm rr b hb => double_move_once_eq hb, ?_⟩
  unfold double_move at h
  cases h1 : double_move_once m u r with
  | none => rw [h1] at h; cases h
  | some mr1 =>
    rw [h1] at h
    have h2 : double_move_once mr1.1 u mr1.2 = some (m', r') := h
    obtain ⟨-, -, a1, ha1, -, hc1⟩ := double_move_once_out ha h1
    obtain ⟨-, -, a2, ha2, -, hc2⟩ := double_move_once_out ha1 h2
    have haa : a2 = a' := by
      rw [ha2] at ha'
      exact Option.some_inj.mp ha'
    rw [← haa]
    calc chebDist a2.pos a.pos ≤ chebDist a2.pos a1.pos + chebDist a1.pos a.pos :=
        chebDist_triangle _ _ _
      _ ≤ 2 + 2 := Nat.add_le_add hc2 hc1
      _ = 4 := rfl

/-- Witness for C4: running the concrete double move recorded in `dmW4` moves
the agent from `(0,0)` to a cell at Chebyshev distance at most 4. -/
theorem C4_double_move_bound_witness : chebDist aW4'.pos aW4.pos ≤ 4 :=
  (C4_double_move_bound mW4 1 rW4 dmW4.1 dmW4.2 aW4 aW4' (by decide) (by decide)
    (by decide)).2.2

theorem get_neighborhood_nonempty {m : Model} {p : Nat × Nat}
    (hp : p.1 < m.height ∧ p.2 < m.width) (hbig : 2 ≤ m.height ∨ 2 ≤ m.width) :
    get_neighborhood m p 2 ≠ [] := by
  rcases hbig with hh | hw
  · have hmem : (if p.1 = 0 then (1, p.2) else (p.1 - 1, p.2)) ∈ get_neighborhood m p 2 := by
      by_cases h0 : p.1 = 0
      · rw [if_pos h0]
        refine mem_get_neighborhood.mpr ⟨⟨hh, hp.2⟩, ?_, ?_⟩
        · intro hcon
          rw [Prod.ext_iff] at hcon
          omega
        · unfold chebDist Nat.dist
          simp only
          omega
      · rw [if_neg h0]
        refine mem_get_neighborhood.mpr ⟨⟨by omega, hp.2⟩, ?_, ?_⟩
        · intro hcon
          rw [Prod.ext_iff] at hcon
          simp only at hcon
          omega
        · unfold chebDist Nat.dist
          simp only
          omega
    exact List.ne_nil_of_mem hmem
  · have hmem : (if p.2 = 0 then (p.1, 1) else (p.1, p.2 - 1)) ∈ get_neighborhood m p 2 := by
      by_cases h0 : p.2 = 0
      · rw [if_pos h0]
        refine mem_get_neighborhood.mpr ⟨⟨hp.1, hw⟩, ?_, ?_⟩
        · intro hcon
          rw [Prod.ext_iff] at hcon
          omega
        · unfold chebDist Nat.dist
          simp only
          omega
      · rw [if_neg h0]
        refine mem_get_neighborhood.mpr ⟨⟨hp.1, by omega⟩, ?_, ?_⟩
        · intro hcon
          rw [Prod.ext_iff] at hcon
          simp only at hcon
          omega
        · unfold chebDist Nat.dist
          simp only
          omega
    exact List.ne_nil_of_mem hmem

/-- A sub-move with a nonempty candidate list never fails. -/
theorem double_move_once_some {m : Model} {u : Nat} {r : Rngs} {a : Agent}
    (ha : findAgent m u = some a) (hne : get_neighborhood m a.pos 2 ≠ []) :
    ∃ m2 r2, double_move_once m u r = some (m2, r2) := by
  cases hsel : (select_new_position (get_neighborhood m a.pos 2) r).1 with
  | none =>
    exfalso
    cases hl : get_neighborhood m a.pos 2 with
    | nil => exact hne hl
    | cons e es =>
      unfold select_new_position at hsel
      rw [hl] at hsel
      cases hsel
  | some q =>
    rw [double_move_once_sel_some ha hsel]
    have hq := mem_get_neighborhood.mp (select_new_position_mem hsel)
    by_cases hce : is_cell_empty m q = true
    · rw [if_pos hce]
      have hb : inBounds m q = true := by
        unfold inBounds
        rw [decide_eq_true hq.1.1, decide_eq_true hq.1.2]
        rfl
      rw [move_agent_of_good hb hce]
      exact ⟨_, _, rfl⟩
    · rw [if_neg hce]
      exact ⟨_, _, rfl⟩

/-- C10: whenever the double move is invoked from the step of an in-bounds
agent that has a radius-1 Moore neighbor with negative influence (the
situation that triggers it), the radius-2 candidate list is nonempty at both
sub-moves, `select_new_position` never returns `none` there, and the double
move completes normally. -/
theorem C10_double_move_safe (m : Model) (u : Nat) (r : Rngs) (a : Agent)
    (ha : findAgent m u = some a)
    (hpos : a.pos.1 < m.height ∧ a.pos.2 < m.width)
    (hneg : hasInfluenceKind m a Influence.negative = true) :
    ∃ m' r', double_move m u r = some (m', r') := by
  obtain ⟨n, hn, -⟩ := List.any_eq_true.mp hneg
  obtain ⟨q, hqmem, -⟩ := List.mem_filterMap.mp hn
  have hq := mem_get_neighborhood.mp hqmem
  have hbig : 2 ≤ m.height ∨ 2 ≤ m.width := by
    have h1 := hq.1
    have h2 := hq.2.1
    have hchain : q.1 ≠ a.pos.1 ∨ q.2 ≠ a.pos.2 := by
      by_contra hcon
      push_neg at hcon
      exact h2 (Prod.ext hcon.1 hcon.2)
    rcases hchain with hx | hy
    · left
      omega
    · right
      omega
  obtain ⟨m2, r2, h1⟩ := double_move_once_some ha
    (get_neighborhood_nonempty hpos hbig)
  obtain ⟨hh2, hw2, a2, ha2, hpos2, -⟩ := double_move_once_out ha h1
  have hpos2' : a2.pos.1 < m2.height ∧ a2.pos.2 < m2.width := by
    rw [hh2, hw2]
    rcases hpos2 with he | hmem2
    · rw [he]
      exact hpos
    · exact (mem_get_neighborhood.mp hmem2).1
  have hbig2 : 2 ≤ m2.height ∨ 2 ≤ m2.width := by
    rw [hh2, hw2]
    exact hbig
  obtain ⟨m3, r3, h2⟩ := double_move_once_some ha2
    (get_neighborhood_nonempty hpos2' hbig2)
  refine ⟨m3, r3, ?_⟩
  unfold double_move
  rw [h1]
  exact h2

/-- Witness for C10: in `mW10` the ordinary agent at `(1,1)` has a
negative-influencer neighbor, and its double move completes. -/
theorem C10_double_move_safe_witness : (double_move mW10 1 rEmpty).isSome = true := by
  obtain ⟨m', r', h⟩ := C10_double_move_safe mW10 1 rEmpty aW10 (by decide) (by decide)
    (by decide)
  rw [h]
  rfl

/-! ### C5: seeding allocation order -/

theorem place_agent_eq_some_iff {m m' : Model} {a : Agent} {p : Nat × Nat} :
    place_agent m a p = some m' ↔
      inBounds m p = true ∧ is_cell_empty m p = true ∧
        m' = { m with
          grid := (p, a.uid) :: m.grid
          agents := m.agents ++ [{ a with pos := p }] } := by
  unfold place_agent
  constructor
  · intro h
    split at h
    · rename_i hcond
      rw [Bool.and_eq_true] at hcond
      exact ⟨hcond.1, hcond.2, (Option.some_inj.mp h).symm⟩
    · cases h
  · rintro ⟨h1, h2, h3⟩
    rw [if_pos (by rw [h1, h2]; rfl), h3]

theorem allocInfluencer_pos {m : Model} (h : 0 < m.num_type1) :
    allocInfluencer m = ({ m with num_type1 := m.num_type1 - 1 }, true,
      some Influence.positive, some m.tolerance_rate_type1) := by
  unfold allocInfluencer
  rw [if_pos h]

theorem allocInfluencer_neg {m : Model} (h1 : ¬ 0 < m.num_type1) (h2 : 0 < m.num_type2) :
    allocInfluencer m = ({ m with num_type2 := m.num_type2 - 1 }, true,
      some Influence.negative, some m.tolerance_rate_type2) := by
  unfold allocInfluencer
  rw [if_neg h1, if_pos h2]

theorem allocInfluencer_ord {m : Model} (h1 : ¬ 0 < m.num_type1) (h2 : ¬ 0 < m.num_type2) :
    allocInfluencer m = (m, false, none, none) := by
  unfold allocInfluencer
  rw [if_neg h1, if_neg h2]

theorem seedCell_eq (m : Model) (r : Rngs) (q : Nat × Nat) :
    seedCell m r q =
      if (randMesaFloat r).1 < m.density then seedResult m r q
      else some (m, (randMesaFloat r).2) := rfl

/-- Generic preservation along the seeding fold. -/
theorem seed_foldl_preserve (P : Model → Prop)
    (hstep : ∀ m r q m1 r1, P m → seedCell m r q = some (m1, r1) → P m1) :
    ∀ (cells : List (Nat × Nat)) (acc : Option (Model × Rngs)),
      (∀ mr, acc = some mr → P mr.1) →
      ∀ mr, cells.foldl (fun acc2 q => acc2.bind (fun mr2 => seedCell mr2.1 mr2.2 q)) acc =
          some mr → P mr.1 := by
  intro cells
  induction cells with
  | nil =>
    intro acc hacc mr h
    exact hacc mr h
  | cons q rest ih =>
    intro acc hacc mr h
    rw [List.foldl_cons] at h
    refine ih _ ?_ mr h
    intro mr' hmr'
    rw [Option.bind_eq_some] at hmr'
    obtain ⟨mr0, hacc0, hstep0⟩ := hmr'
    exact hstep mr0.1 mr0.2 q mr'.1 mr'.2 (hacc mr0 hacc0) hstep0

theorem allocInfluencer_base (m : Model) :
    (allocInfluencer m).1.agents = m.agents ∧
    (allocInfluencer m).1.current_id = m.current_id ∧
    (allocInfluencer m).1.grid = m.grid ∧
    (allocInfluencer m).1.tolerance_rate_type1 = m.tolerance_rate_type1 ∧
    (allocInfluencer m).1.tolerance_rate_type2 = m.tolerance_rate_type2 ∧
    (allocInfluencer m).1.height = m.height ∧
    (allocInfluencer m).1.width = m.width ∧
    (allocInfluencer m).1.density = m.density ∧
    (allocInfluencer m).1.minority_pc = m.minority_pc ∧
    (allocInfluencer m).1.happy = m.happy ∧
    (allocInfluencer m).1.majority_agent_type = m.majority_agent_type ∧
    (allocInfluencer m).1.homophily = m.homophily := by
  unfold allocInfluencer
  split
  · exact ⟨rfl, rfl, rfl, rfl, rfl, rfl, rfl, rfl, rfl, rfl, rfl, rfl⟩
  · split
    · exact ⟨rfl, rfl, rfl, rfl, rfl, rfl, rfl, rfl, rfl, rfl, rfl, rfl⟩
    · exact ⟨rfl, rfl, rfl, rfl, rfl, rfl, rfl, rfl, rfl, rfl, rfl, rfl⟩

theorem allocInfluencer_pos_parts {m : Model} (h : 0 < m.num_type1) :
    (allocInfluencer m).1.num_type1 = m.num_type1 - 1 ∧
    (allocInfluencer m).1.num_type2 = m.num_type2 ∧
    (allocInfluencer m).2.1 = true ∧
    (allocInfluencer m).2.2.1 = some Influence.positive ∧
    (allocInfluencer m).2.2.2 = some m.tolerance_rate_type1 := by
  rw [allocInfluencer_pos h]
  exact ⟨rfl, rfl, rfl, rfl, rfl⟩

theorem allocInfluencer_neg_parts {m : Model} (h1 : ¬ 0 < m.num_type1)
    (h2 : 0 < m.num_type2) :
    (allocInfluencer m).1.num_type1 = m.num_type1 ∧
    (allocInfluencer m).1.num_type2 = m.num_type2 - 1 ∧
    (allocInfluencer m).2.1 = true ∧
    (allocInfluencer m).2.2.1 = some Influence.negative ∧
    (allocInfluencer m).2.2.2 = some m.tolerance_rate_type2 := by
  rw [allocInfluencer_neg h1 h2]
  exact ⟨rfl, rfl, rfl, rfl, rfl⟩

theorem allocInfluencer_ord_parts {m : Model} (h1 : ¬ 0 < m.num_type1)
    (h2 : ¬ 0 < m.num_type2) :
    (allocInfluencer m).1.num_type1 = m.num_type1 ∧
    (allocInfluencer m).1.num_type2 = m.num_type2 ∧
    (allocInfluencer m).2.1 = false ∧
    (allocInfluencer m).2.2.1 = none ∧
    (allocInfluencer m).2.2.2 = none := by
  rw [allocInfluencer_ord h1 h2]
  exact ⟨rfl, rfl, rfl, rfl, rfl⟩

/-- What a successful seeding of a cell does to the state, expressed through
compact projections. -/
theorem seedCell_seeded {m m1 : Model} {r r1 : Rngs} {q : Nat × Nat}
    (hd : (randMesaFloat r).1 < m.density) (h : seedCell m r q = some (m1, r1)) :
    inBounds m q = true ∧ is_cell_empty m q = true ∧
    r1 = (randNpFloat (randMesaFloat r).2).2 ∧
    m1.agents = m.agents ++ [{ seededAgent m r q with pos := q }] ∧
    m1.grid = (q, m.current_id + 1) :: m.grid ∧
    m1.current_id = m.current_id + 1 ∧
    m1.height = m.height ∧ m1.width = m.width ∧ m1.density = m.density ∧
    m1.minority_pc = m.minority_pc ∧ m1.happy = m.happy ∧
    m1.majority_agent_type = m.majority_agent_type ∧ m1.homophily = m.homophily ∧
    m1.tolerance_rate_type1 = m.tolerance_rate_type1 ∧
    m1.tolerance_rate_type2 = m.tolerance_rate_type2 ∧
    m1.num_type1 = (allocInfluencer m).1.num_type1 ∧
    m1.num_type2 = (allocInfluencer m).1.num_type2 := by
  rw [seedCell_eq m r q, if_pos hd] at h
  unfold seedResult at h
  obtain ⟨m3, hplace, hpair⟩ := Option.map_eq_some'.mp h
  rw [Prod.mk.injEq] at hpair
  obtain ⟨hm, hr⟩ := hpair
  obtain ⟨hbG, hcG, hform0⟩ := place_agent_eq_some_iff.mp hplace
  have hform := hm ▸ hform0
  have hbase := allocInfluencer_base m
  have hbm : inBounds m q = true := by
    have hb2 : (decide (q.1 < (allocInfluencer m).1.height) &&
        decide (q.2 < (allocInfluencer m).1.width)) = true := hbG
    rw [hbase.2.2.2.2.2.1, hbase.2.2.2.2.2.2.1] at hb2
    exact hb2
  have hcm : is_cell_empty m q = true := by
    have hc2 : (((allocInfluencer m).1.grid.find? (fun e => e.1 = q)).map
        (fun e => e.2)).isNone = true := hcG
    rw [hbase.2.2.1] at hc2
    exact hc2
  have hag : m1.agents = m.agents ++ [{ seededAgent m r q with pos := q }] := by
    rw [hform]
    show (allocInfluencer m).1.agents ++ [{ seededAgent m r q with pos := q }] = _
    rw [hbase.1]
  have hgr : m1.grid = (q, m.current_id + 1) :: m.grid := by
    rw [hform]
    show (q, (allocInfluencer m).1.current_id + 1) :: (allocInfluencer m).1.grid = _
    rw [hbase.2.1, hbase.2.2.1]
  have hci : m1.current_id = m.current_id + 1 := by
    rw [hform]
    show (allocInfluencer m).1.current_id + 1 = _
    rw [hbase.2.1]
  refine ⟨hbm, hcm, hr.symm, hag, hgr, hci, ?_, ?_, ?_, ?_, ?_, ?_, ?_, ?_, ?_, ?_, ?_⟩
  · rw [hform]
    exact hbase.2.2.2.2.2.1
  · rw [hform]
    exact hbase.2.2.2.2.2.2.1
  · rw [hform]
    exact hbase.2.2.2.2.2.2.2.1
  · rw [hform]
    exact hbase.2.2.2.2.2.2.2.2.1
  · rw [hform]
    exact hbase.2.2.2.2.2.2.2.2.2.1
  · rw [hform]
    exact hbase.2.2.2.2.2.2.2.2.2.2.1
  · rw [hform]
    exact hbase.2.2.2.2.2.2.2.2.2.2.2
  · rw [hform]
    exact hbase.2.2.2.1
  · rw [hform]
    exact hbase.2.2.2.2.1
  · rw [hform]
  · rw [hform]

/-- What a skipped cell does: nothing but consuming the density draw. -/
theorem seedCell_skipped {m m1 : Model} {r r1 : Rngs} {q : Nat × Nat}
    (hd : ¬ (randMesaFloat r).1 < m.density) (h : seedCell m r q = some (m1, r1)) :
    m1 = m ∧ r1 = (randMesaFloat r).2 := by
  rw [seedCell_eq m r q, if_neg hd] at h
  have hpair := Option.some_inj.mp h
  rw [Prod.mk.injEq] at hpair
  exact ⟨hpair.1.symm, hpair.2.symm⟩

theorem seedCell_SeedInv {p : Params} {m m1 : Model} {r r1 : Rngs} {q : Nat × Nat}
    (hinv : SeedInv p m) (h : seedCell m r q = some (m1, r1)) : SeedInv p m1 := by
  by_cases hd : (randMesaFloat r).1 < m.density
  · obtain ⟨-, -, -, hag, -, -, -, -, -, -, -, -, -, htl1, htl2, hn1, hn2⟩ :=
      seedCell_seeded hd h
    obtain ⟨ht1, ht2, hc1, hc2, hall⟩ := hinv
    have hlen : m1.agents.length = m.agents.length + 1 := by
      rw [hag, List.length_append]
      rfl
    by_cases hb1 : 0 < m.num_type1
    · have hparts := allocInfluencer_pos_parts hb1
      have hkbound : m.agents.length < p.num_type1.toNat := by omega
      refine ⟨htl1.trans ht1, htl2.trans ht2, ?_, ?_, ?_⟩
      · rw [hn1, hparts.1, hlen]
        omega
      · rw [hn2, hparts.2.1, hlen]
        omega
      · intro k hk
        rw [hlen] at hk
        rw [hag]
        by_cases hkl : k < m.agents.length
        · rw [List.getD_append _ _ _ _ hkl]
          exact hall k hkl
        · have hke : k = m.agents.length := by omega
          subst hke
          rw [List.getD_append_right _ _ _ _ (Nat.le_refl _), Nat.sub_self]
          refine ⟨fun _ => ⟨?_, ?_, ?_⟩, fun h1 _ => absurd h1 (by omega),
            fun h1 => absurd h1 (by omega)⟩
          · show (allocInfluencer m).2.1 = true
            rw [hparts.2.2.1]
          · show (allocInfluencer m).2.2.1 = some Influence.positive
            rw [hparts.2.2.2.1]
          · show (allocInfluencer m).2.2.2 = some p.tolerance_rate_type1
            rw [hparts.2.2.2.2, ht1]
    · by_cases hb2 : 0 < m.num_type2
      · have hparts := allocInfluencer_neg_parts hb1 hb2
        have hklow : p.num_type1.toNat ≤ m.agents.length := by omega
        have hkhigh : m.agents.length < p.num_type1.toNat + p.num_type2.toNat := by omega
        refine ⟨htl1.trans ht1, htl2.trans ht2, ?_, ?_, ?_⟩
        · rw [hn1, hparts.1, hlen]
          omega
        · rw [hn2, hparts.2.1, hlen]
          omega
        · intro k hk
          rw [hlen] at hk
          rw [hag]
          by_cases hkl : k < m.agents.length
          · rw [List.getD_append _ _ _ _ hkl]
            exact hall k hkl
          · have hke : k = m.agents.length := by omega
            subst hke
            rw [List.getD_append_right _ _ _ _ (Nat.le_refl _), Nat.sub_self]
            refine ⟨fun h1 => absurd h1 (by omega), fun _ _ => ⟨?_, ?_, ?_⟩,
              fun h1 => absurd h1 (by omega)⟩
            · show (allocInfluencer m).2.1 = true
              rw [hparts.2.2.1]
            · show (allocInfluencer m).2.2.1 = some Influence.negative
              rw [hparts.2.2.2.1]
            · show (allocInfluencer m).2.2.2 = some p.tolerance_rate_type2
              rw [hparts.2.2.2.2, ht2]
      · have hparts := allocInfluencer_ord_parts hb1 hb2
        have hklow : p.num_type1.toNat + p.num_type2.toNat ≤ m.agents.length := by omega
        refine ⟨htl1.trans ht1, htl2.trans ht2, ?_, ?_, ?_⟩
        · rw [hn1, hparts.1, hlen]
          omega
        · rw [hn2, hparts.2.1, hlen]
          omega
        · intro k hk
          rw [hlen] at hk
          rw [hag]
          by_cases hkl : k < m.agents.length
          · rw [List.getD_append _ _ _ _ hkl]
            exact hall k hkl
          · have hke : k = m.agents.length := by omega
            subst hke
            rw [List.getD_append_right _ _ _ _ (Nat.le_refl _), Nat.sub_self]
            refine ⟨fun h1 => absurd h1 (by omega), fun h1 h2 => absurd h2 (by omega),
              fun _ => ⟨?_, ?_, ?_⟩⟩
            · show (allocInfluencer m).2.1 = false
              rw [hparts.2.2.1]
            · show (allocInfluencer m).2.2.1 = none
              rw [hparts.2.2.2.1]
            · show (allocInfluencer m).2.2.2 = none
              rw [hparts.2.2.2.2]
  · obtain ⟨hm, -⟩ := seedCell_skipped hd h
    rw [hm]
    exact hinv

theorem construct_SeedInv {p : Params} {r : Rngs} {m : Model} {r' : Rngs}
    (h : construct p r = some (m, r')) : SeedInv p m := by
  have := seed_foldl_preserve (SeedInv p)
    (fun m0 r0 q m1 r1 hP hs => seedCell_SeedInv hP hs)
    (allCells p.height p.width) (some (initModel p, r)) ?_ (m, r') h
  · exact this
  · intro mr hmr
    have heq : (initModel p, r) = mr := Option.some_inj.mp hmr
    rw [← heq]
    refine ⟨rfl, rfl, ?_, ?_, ?_⟩
    · show p.num_type1 = p.num_type1 - (min ([] : List Agent).length p.num_type1.toNat : Nat)
      simp
    · show p.num_type2 = p.num_type2 -
        (min (([] : List Agent).length - p.num_type1.toNat) p.num_type2.toNat : Nat)
      simp
    · intro k hk
      exact absurd hk (Nat.not_lt_zero k)

/-- C5: the seeding scan allocates influencer status by order, not randomly:
for every constructed state, the agent seeded at index `k` is a positive
influencer with the configured positive tolerance exactly when
`k < num_type1`, a negative influencer with the configured negative tolerance
exactly when `num_type1 <= k < num_type1 + num_type2`, and ordinary (no
influence, no tolerance) afterwards — for any density and any streams. -/
theorem C5_seeding_allocation (p : Params) (r : Rngs) (m : Model) (r' : Rngs)
    (h : construct p r = some (m, r')) (k : Nat) (hk : k < m.agents.length) :
    influAlloc p k (m.agents.getD k dfltAgent) :=
  (construct_SeedInv h).2.2.2.2 k hk

/-- The lookup at a cell different from a freshly occupied one is
unchanged. -/
theorem gridGet_cons_ne {m1 m : Model} {q c : Nat × Nat} {u : Nat}
    (hg : m1.grid = (q, u) :: m.grid) (hne : c ≠ q) : gridGet m1 c = gridGet m c := by
  unfold gridGet
  rw [hg, List.find?_cons]
  have hdec : decide ((q, u).1 = c) = false := by
    simp only [decide_eq_false_iff_not]
    intro hcon
    exact hne (by rw [← hcon])
  rw [hdec]

/-- Seeding a cell that lies on the grid and is still empty always
succeeds. -/
theorem seedCell_total {m : Model} {r : Rngs} {q : Nat × Nat}
    (hbq : q.1 < m.height ∧ q.2 < m.width) (hempty : gridGet m q = none) :
    ∃ m1 r1, seedCell m r q = some (m1, r1) := by
  by_cases hd : (randMesaFloat r).1 < m.density
  · rw [seedCell_eq m r q, if_pos hd]
    unfold seedResult
    have hbase := allocInfluencer_base m
    have hb : inBounds
        { (allocInfluencer m).1 with current_id := (allocInfluencer m).1.current_id + 1 }
        q = true := by
      show (decide (q.1 < (allocInfluencer m).1.height) &&
        decide (q.2 < (allocInfluencer m).1.width)) = true
      rw [hbase.2.2.2.2.2.1, hbase.2.2.2.2.2.2.1,
        decide_eq_true hbq.1, decide_eq_true hbq.2]
      rfl
    have hc : is_cell_empty
        { (allocInfluencer m).1 with current_id := (allocInfluencer m).1.current_id + 1 }
        q = true := by
      show (((allocInfluencer m).1.grid.find? (fun e => e.1 = q)).map
        (fun e => e.2)).isNone = true
      rw [hbase.2.2.1]
      show (gridGet m q).isNone = true
      rw [hempty]
      rfl
    rw [place_agent_eq_some_iff.mpr ⟨hb, hc, rfl⟩]
    exact ⟨_, _, rfl⟩
  · rw [seedCell_eq m r q, if_neg hd]
    exact ⟨_, _, rfl⟩

/-- The seeding fold over distinct, in-bounds, still-empty cells always
succeeds. -/
theorem seed_fold_total :
    ∀ (cells : List (Nat × Nat)) (m : Model) (r : Rngs),
      (∀ c ∈ cells, c.1 < m.height ∧ c.2 < m.width) →
      (∀ c ∈ cells, gridGet m c = none) →
      cells.Nodup →
      ∃ m2 r2,
        cells.foldl (fun acc q => acc.bind (fun mr => seedCell mr.1 mr.2 q)) (some (m, r)) =
          some (m2, r2) := by
  intro cells
  induction cells with
  | nil => exact fun m r _ _ _ => ⟨m, r, rfl⟩
  | cons q rest ih =>
    intro m r hb he hnd
    rw [List.nodup_cons] at hnd
    obtain ⟨m1, r1, hs⟩ := seedCell_total (hb q (List.mem_cons_self q rest))
      (he q (List.mem_cons_self q rest))
    have hdims : m1.height = m.height ∧ m1.width = m.width ∧
        ∀ c, c ≠ q → gridGet m1 c = gridGet m c := by
      by_cases hd : (randMesaFloat r).1 < m.density
      · obtain ⟨-, -, -, -, hgr, -, hh, hw, -⟩ := seedCell_seeded hd hs
        exact ⟨hh, hw, fun c hc => gridGet_cons_ne hgr hc⟩
      · obtain ⟨hm, -⟩ := seedCell_skipped hd hs
        rw [hm]
        exact ⟨rfl, rfl, fun _ _ => rfl⟩
    rw [List.foldl_cons]
    have hfold : (some (m, r)).bind (fun mr => seedCell mr.1 mr.2 q) = some (m1, r1) := hs
    rw [hfold]
    refine ih m1 r1 ?_ ?_ hnd.2
    · intro c hc
      rw [hdims.1, hdims.2.1]
      exact hb c (List.mem_cons_of_mem q hc)
    · intro c hc
      rw [hdims.2.2 c (fun hcq => hnd.1 (hcq ▸ hc))]
      exact he c (List.mem_cons_of_mem q hc)

/-- Counterexample to C9: a parameter set that is invalid under every
criterion of the claim (density and minority fraction above 1, negative
homophily, negative influencer count, negative tolerance) is accepted
silently: construction does not fail fast — it completes and creates
agents. -/
theorem C9_no_validation_counterexample :
    (1 : ℚ) < pX9.density ∧ (1 : ℚ) < pX9.minority_pc ∧ pX9.homophily < 0 ∧
    pX9.num_type1 < 0 ∧ pX9.tolerance_rate_type1 < 0 ∧
    (construct pX9 rEmpty).map (fun mr => mr.1.agents.length) = some 4 := by
  refine ⟨by decide, by decide, by decide, by decide, by decide, by decide⟩

/-- C9 (amended): the constructor performs no parameter validation at all and
never fails, fast or otherwise: for every parameter set — including
out-of-range probabilities and negative thresholds, counts or tolerances —
and every pair of random streams, construction completes normally. -/
theorem C9_construction_never_fails (p : Params) (r : Rngs) :
    ∃ m r2, construct p r = some (m, r2) := by
  unfold construct
  refine seed_fold_total (allCells p.height p.width) (initModel p) r ?_ ?_
    (allCells_nodup p.height p.width)
  · intro c hc
    exact mem_allCells.mp hc
  · intro c hc
    rfl

/-! ### C1: the two random sources -/

theorem inBounds_allocCid (m : Model) (q : Nat × Nat) :
    inBounds { (allocInfluencer m).1 with
      current_id := (allocInfluencer m).1.current_id + 1 } q = inBounds m q := by
  show (decide (q.1 < (allocInfluencer m).1.height) &&
    decide (q.2 < (allocInfluencer m).1.width)) = _
  rw [(allocInfluencer_base m).2.2.2.2.2.1, (allocInfluencer_base m).2.2.2.2.2.2.1]
  rfl

theorem is_cell_empty_allocCid (m : Model) (q : Nat × Nat) :
    is_cell_empty { (allocInfluencer m).1 with
      current_id := (allocInfluencer m).1.current_id + 1 } q = is_cell_empty m q := by
  show (((allocInfluencer m).1.grid.find? (fun e => e.1 = q)).map
    (fun e => e.2)).isNone = _
  rw [(allocInfluencer_base m).2.2.1]
  rfl

theorem place_agent_none {m : Model} {a : Agent} {p : Nat × Nat}
    (h : (inBounds m p && is_cell_empty m p) = false) : place_agent m a p = none := by
  unfold place_agent
  rw [h]
  rfl

theorem seedCell_pos_none {m : Model} {r : Rngs} {q : Nat × Nat}
    (hd : (randMesaFloat r).1 < m.density)
    (hg : (inBounds m q && is_cell_empty m q) = false) : seedCell m r q = none := by
  rw [seedCell_eq m r q, if_pos hd]
  unfold seedResult
  rw [place_agent_none (by rw [inBounds_allocCid, is_cell_empty_allocCid]; exact hg)]
  rfl

theorem allocInfluencer_congr {m m' : Model} (h1 : m.num_type1 = m'.num_type1)
    (h2 : m.num_type2 = m'.num_type2) (h3 : m.tolerance_rate_type1 = m'.tolerance_rate_type1)
    (h4 : m.tolerance_rate_type2 = m'.tolerance_rate_type2) :
    (allocInfluencer m).1.num_type1 = (allocInfluencer m').1.num_type1 ∧
    (allocInfluencer m).1.num_type2 = (allocInfluencer m').1.num_type2 ∧
    (allocInfluencer m).2.1 = (allocInfluencer m').2.1 ∧
    (allocInfluencer m).2.2.1 = (allocInfluencer m').2.2.1 ∧
    (allocInfluencer m).2.2.2 = (allocInfluencer m').2.2.2 := by
  by_cases hb1 : 0 < m.num_type1
  · have hb1' : 0 < m'.num_type1 := h1 ▸ hb1
    have p1 := allocInfluencer_pos_parts hb1
    have p2 := allocInfluencer_pos_parts hb1'
    refine ⟨?_, ?_, ?_, ?_, ?_⟩
    · rw [p1.1, p2.1, h1]
    · rw [p1.2.1, p2.2.1, h2]
    · rw [p1.2.2.1, p2.2.2.1]
    · rw [p1.2.2.2.1, p2.2.2.2.1]
    · rw [p1.2.2.2.2, p2.2.2.2.2, h3]
  · have hb1' : ¬ 0 < m'.num_type1 := h1 ▸ hb1
    by_cases hb2 : 0 < m.num_type2
    · have hb2' : 0 < m'.num_type2 := h2 ▸ hb2
      have p1 := allocInfluencer_neg_parts hb1 hb2
      have p2 := allocInfluencer_neg_parts hb1' hb2'
      refine ⟨?_, ?_, ?_, ?_, ?_⟩
      · rw [p1.1, p2.1, h1]
      · rw [p1.2.1, p2.2.1, h2]
      · rw [p1.2.2.1, p2.2.2.1]
      · rw [p1.2.2.2.1, p2.2.2.2.1]
      · rw [p1.2.2.2.2, p2.2.2.2.2, h4]
    · have hb2' : ¬ 0 < m'.num_type2 := h2 ▸ hb2
      have p1 := allocInfluencer_ord_parts hb1 hb2
      have p2 := allocInfluencer_ord_parts hb1' hb2'
      refine ⟨?_, ?_, ?_, ?_, ?_⟩
      · rw [p1.1, p2.1, h1]
      · rw [p1.2.1, p2.2.1, h2]
      · rw [p1.2.2.1, p2.2.2.1]
      · rw [p1.2.2.2.1, p2.2.2.2.1]
      · rw [p1.2.2.2.2, p2.2.2.2.2]

theorem seedCell_SeedRel {m m' : Model} {r r' : Rngs} {q : Nat × Nat}
    (hma : NpAgnostic m m') (hf : r.mesaFloats = r'.mesaFloats)
    (hn : r.mesaNats = r'.mesaNats) :
    SeedRel (seedCell m r q) (seedCell m' r' q) := by
  obtain ⟨hh, hw, hden, hmin, hhom, hnum1, htol1, hnum2, htol2, hmaj, hhap, hcid, hgr, hsh⟩ :=
    hma
  have hdraw : (randMesaFloat r).1 = (randMesaFloat r').1 := by
    unfold randMesaFloat
    rw [hf]
  have hdtail : (randMesaFloat r).2.mesaFloats = (randMesaFloat r').2.mesaFloats := by
    unfold randMesaFloat
    simp only
    rw [hf]
  have hdnats : (randMesaFloat r).2.mesaNats = (randMesaFloat r').2.mesaNats := by
    unfold randMesaFloat
    simp only
    exact hn
  by_cases hd : (randMesaFloat r).1 < m.density
  · have hd' : (randMesaFloat r').1 < m'.density := by
      rw [← hdraw, ← hden]
      exact hd
    have hbeq : inBounds m q = inBounds m' q := by
      unfold inBounds
      rw [hh, hw]
    have hceq : is_cell_empty m q = is_cell_empty m' q := by
      unfold is_cell_empty gridGet
      rw [hgr]
    by_cases hg : (inBounds m q && is_cell_empty m q) = true
    · rw [Bool.and_eq_true] at hg
      have hbq : q.1 < m.height ∧ q.2 < m.width := by
        have := hg.1
        unfold inBounds at this
        rw [Bool.and_eq_true, decide_eq_true_eq, decide_eq_true_eq] at this
        exact this
      have hempty : gridGet m q = none := by
        have := hg.2
        unfold is_cell_empty at this
        rw [Option.isNone_iff_eq_none] at this
        exact this
      have hbq' : q.1 < m'.height ∧ q.2 < m'.width := by
        rw [← hh, ← hw]
        exact hbq
      have hempty' : gridGet m' q = none := by
        unfold gridGet
        rw [← hgr]
        exact hempty
      obtain ⟨m1, r1, hs⟩ := seedCell_total hbq hempty
      obtain ⟨m1', r1', hs'⟩ := seedCell_total hbq' hempty'
      rw [hs, hs']
      show NpAgnostic m1 m1' ∧ r1.mesaFloats = r1'.mesaFloats ∧ r1.mesaNats = r1'.mesaNats
      obtain ⟨-, -, hr1, hag, hgr1, hci1, hh1, hw1, hden1, hmin1, hhap1, hmaj1, hhom1,
        ht11, ht21, hn11, hn21⟩ := seedCell_seeded hd hs
      obtain ⟨-, -, hr1', hag', hgr1', hci1', hh1', hw1', hden1', hmin1', hhap1', hmaj1',
        hhom1', ht11', ht21', hn11', hn21'⟩ := seedCell_seeded hd' hs'
      have hcongr := allocInfluencer_congr hnum1 hnum2 htol1 htol2
      refine ⟨⟨?_, ?_, ?_, ?_, ?_, ?_, ?_, ?_, ?_, ?_, ?_, ?_, ?_, ?_⟩, ?_, ?_⟩
      · rw [hh1, hh1', hh]
      · rw [hw1, hw1', hw]
      · rw [hden1, hden1', hden]
      · rw [hmin1, hmin1', hmin]
      · rw [hhom1, hhom1', hhom]
      · rw [hn11, hn11', hcongr.1]
      · rw [ht11, ht11', htol1]
      · rw [hn21, hn21', hcongr.2.1]
      · rw [ht21, ht21', htol2]
      · rw [hmaj1, hmaj1', hmaj]
      · rw [hhap1, hhap1', hhap]
      · rw [hci1, hci1', hcid]
      · rw [hgr1, hgr1', hcid, hgr]
      · rw [hag, hag', List.map_append, List.map_append, hsh]
        have hsing : agentShape { seededAgent m r q with pos := q } =
            agentShape { seededAgent m' r' q with pos := q } := by
          show ((allocInfluencer m).1.current_id + 1, (allocInfluencer m).2.1,
            (allocInfluencer m).2.2.1, (allocInfluencer m).2.2.2, q) =
            ((allocInfluencer m').1.current_id + 1, (allocInfluencer m').2.1,
              (allocInfluencer m').2.2.1, (allocInfluencer m').2.2.2, q)
          rw [(allocInfluencer_base m).2.1, (allocInfluencer_base m').2.1, hcid,
            hcongr.2.2.1, hcongr.2.2.2.1, hcongr.2.2.2.2]
        rw [List.map_cons, List.map_cons, List.map_nil, hsing]
      · rw [hr1, hr1']
        show (randMesaFloat r).2.mesaFloats = (randMesaFloat r').2.mesaFloats
        exact hdtail
      · rw [hr1, hr1']
        show (randMesaFloat r).2.mesaNats = (randMesaFloat r').2.mesaNats
        exact hdnats
    · have hgf : (inBounds m q && is_cell_empty m q) = false := by
        cases hcase : (inBounds m q && is_cell_empty m q) with
        | true => exact absurd hcase hg
        | false => rfl
      have hgf' : (inBounds m' q && is_cell_empty m' q) = false := by
        rw [← hbeq, ← hceq]
        exact hgf
      rw [seedCell_pos_none hd hgf, seedCell_pos_none hd' hgf']
      trivial
  · have hd' : ¬ (randMesaFloat r').1 < m'.density := by
      rw [← hdraw, ← hden]
      exact hd
    rw [seedCell_eq m r q, if_neg hd, seedCell_eq m' r' q, if_neg hd']
    exact ⟨⟨hh, hw, hden, hmin, hhom, hnum1, htol1, hnum2, htol2, hmaj, hhap, hcid, hgr, hsh⟩,
      hdtail, hdnats⟩

theorem seed_fold_SeedRel :
    ∀ (cells : List (Nat × Nat)) (acc acc' : Option (Model × Rngs)), SeedRel acc acc' →
      SeedRel (cells.foldl (fun acc2 q => acc2.bind (fun mr => seedCell mr.1 mr.2 q)) acc)
        (cells.foldl (fun acc2 q => acc2.bind (fun mr => seedCell mr.1 mr.2 q)) acc') := by
  intro cells
  induction cells with
  | nil => exact fun acc acc' h => h
  | cons q rest ih =>
    intro acc acc' h
    rw [List.foldl_cons, List.foldl_cons]
    refine ih _ _ ?_
    cases acc with
    | none =>
      cases acc' with
      | none => trivial
      | some v => exact h.elim
    | some v =>
      cases acc' with
      | none => exact h.elim
      | some v' =>
        have hrel : NpAgnostic v.1 v'.1 ∧ v.2.mesaFloats = v'.2.mesaFloats ∧
            v.2.mesaNats = v'.2.mesaNats := h
        exact seedCell_SeedRel hrel.1 hrel.2.1 hrel.2.2

theorem construct_SeedRel (p : Params) (r r' : Rngs) (hf : r.mesaFloats = r'.mesaFloats)
    (hn : r.mesaNats = r'.mesaNats) : SeedRel (construct p r) (construct p r') := by
  unfold construct
  refine seed_fold_SeedRel (allCells p.height p.width) _ _ ?_
  exact ⟨⟨rfl, rfl, rfl, rfl, rfl, rfl, rfl, rfl, rfl, rfl, rfl, rfl, rfl, rfl⟩, hf, hn⟩

/-- Counterexample to C1: two stream pairs that agree on the model's seedable
source but differ in numpy's source construct models with different agent
types, so not every random draw is derived from the single seedable source
(the minority/type draw at src/model.py line 168 reads `np.random`). -/
theorem C1_np_source_counterexample :
    rC1a.mesaFloats = rC1b.mesaFloats ∧ rC1a.mesaNats = rC1b.mesaNats ∧
    (construct pC1 rC1a).map (fun mr => mr.1.agents.map (fun a => a.agent_type)) ≠
      (construct pC1 rC1b).map (fun mr => mr.1.agents.map (fun a => a.agent_type)) := by
  refine ⟨by decide, by decide, by decide⟩

/-- C1 (amended): the simulation draws from two random sources, not one.  A
full run is a pure function of the parameters together with both sources (two
runs with identical streams coincide, tick for tick), and everything the
seeding decides except the agents' types — grid occupancy, ids, influencer
allocation, positions — depends only on the model's seedable source, while
the minority/type draw depends on numpy's global source. -/
theorem C1_two_source_determinism (p : Params) (r1 r2 : Rngs) (n : Nat)
    (hf : r1.mesaFloats = r2.mesaFloats) (hn : r1.mesaNats = r2.mesaNats) :
    (r1 = r2 → runSim p r1 n = runSim p r2 n) ∧
    (construct p r1).map (fun mr => seedSkeleton mr.1) =
      (construct p r2).map (fun mr => seedSkeleton mr.1) := by
  refine ⟨fun he => by rw [he], ?_⟩
  have hrel := construct_SeedRel p r1 r2 hf hn
  cases hc1 : construct p r1 with
  | none =>
    cases hc2 : construct p r2 with
    | none => rfl
    | some v =>
      rw [hc1, hc2] at hrel
      exact hrel.elim
  | some v =>
    cases hc2 : construct p r2 with
    | none =>
      rw [hc1, hc2] at hrel
      exact hrel.elim
    | some v' =>
      rw [hc1, hc2] at hrel
      have hrel' : NpAgnostic v.1 v'.1 ∧ v.2.mesaFloats = v'.2.mesaFloats ∧
          v.2.mesaNats = v'.2.mesaNats := hrel
      simp only [Option.map_some']
      obtain ⟨hnpa, -, -⟩ := hrel'
      obtain ⟨-, -, -, -, -, -, -, -, -, -, -, -, hgr, hsh⟩ := hnpa
      unfold seedSkeleton
      rw [hgr, hsh]

/-- Witness for the amended C1: the two concrete runs of the counterexample
share the model's seedable source, and indeed their seeded skeletons (grid
occupancy and agent shapes) coincide even though the agent types differ. -/
theorem C1_two_source_determinism_witness :
    (construct pC1 rC1a).map (fun mr => seedSkeleton mr.1) =
      (construct pC1 rC1b).map (fun mr => seedSkeleton mr.1) :=
  (C1_two_source_determinism pC1 rC1a rC1b 0 (by decide) (by decide)).2

/-! ### C8: the occupancy invariant -/

theorem uid_inj {m : Model} (hnd : uidsNodup m) {b c : Agent} (hb : b ∈ m.agents)
    (hc : c ∈ m.agents) (he : b.uid = c.uid) : b = c := by
  unfold uidsNodup at hnd
  exact List.inj_on_of_nodup_map hnd hb hc he

/-- Removing the unique entry carrying value `u` shortens the grid list by
exactly one. -/
theorem length_filter_ne {u : Nat} :
    ∀ (l : List ((Nat × Nat) × Nat)) (e0 : (Nat × Nat) × Nat), e0 ∈ l → e0.2 = u →
      (∀ e ∈ l, e.2 = u → e = e0) → l.Nodup →
      (l.filter (fun e => decide (e.2 ≠ u))).length + 1 = l.length := by
  intro l
  induction l with
  | nil =>
    intro e0 h
    cases h
  | cons b t ih =>
    intro e0 hmem hval huniq hnd
    rw [List.nodup_cons] at hnd
    by_cases hbu : b.2 = u
    · have hbe : b = e0 := huniq b (List.mem_cons_self b t) hbu
      rw [List.filter_cons_of_neg (by simp [hbu])]
      have hteq : t.filter (fun e => decide (e.2 ≠ u)) = t := by
        rw [List.filter_eq_self]
        intro e het
        simp only [decide_eq_true_eq]
        intro hcon
        have hee : e = e0 := huniq e (List.mem_cons_of_mem b het) hcon
        exact hnd.1 (by rw [hbe, ← hee]; exact het)
      rw [hteq, List.length_cons]
    · have he0t : e0 ∈ t := by
        rcases List.mem_cons.mp hmem with hbe | ht
        · exact absurd (by rw [← hbe]; exact hval) hbu
        · exact ht
      rw [List.filter_cons_of_pos (by simp [hbu]), List.length_cons, List.length_cons]
      rw [← ih e0 he0t hval (fun e he hv => huniq e (List.mem_cons_of_mem b he) hv) hnd.2]

/-- Relocating a registered agent onto an empty in-bounds cell preserves the
occupancy invariant, leaves the id list unchanged and keeps the grid size. -/
theorem move_agent_Invariant {m m' : Model} {u : Nat} {p : Nat × Nat}
    (hinv : Invariant m) (hex : ∃ b ∈ m.agents, b.uid = u)
    (h : move_agent m u p = some m') :
    Invariant m' ∧ m'.agents.map (fun a => a.uid) = m.agents.map (fun a => a.uid) ∧
      m'.height = m.height ∧ m'.width = m.width ∧ m'.current_id = m.current_id := by
  obtain ⟨hcell, huid, hubnd, hg2a, ha2g, hbnd, hlen⟩ := hinv
  obtain ⟨a0, ha0, ha0u⟩ := hex
  obtain ⟨hbok, hempty, hform⟩ := move_agent_eq_some_iff.mp h
  have hbq : p.1 < m.height ∧ p.2 < m.width := by
    unfold inBounds at hbok
    rw [Bool.and_eq_true, decide_eq_true_eq, decide_eq_true_eq] at hbok
    exact hbok
  have hgnone : gridGet m p = none := by
    unfold is_cell_empty at hempty
    rw [Option.isNone_iff_eq_none] at hempty
    exact hempty
  have hkeys : ∀ e ∈ m.grid, e.1 ≠ p := gridGet_eq_none_iff.mp hgnone
  have hagents : m'.agents =
      m.agents.map (fun a => if a.uid = u then { a with pos := p } else a) := by
    rw [hform]
    rfl
  have hgrid : m'.grid = (p, u) :: m.grid.filter (fun e => decide (e.2 ≠ u)) := by
    rw [hform]
    rfl
  have hdims : m'.height = m.height ∧ m'.width = m.width ∧ m'.current_id = m.current_id := by
    rw [hform]
    exact ⟨rfl, rfl, rfl⟩
  have huidmap : m'.agents.map (fun a => a.uid) = m.agents.map (fun a => a.uid) := by
    rw [hagents, List.map_map]
    apply List.map_congr_left
    intro a _
    by_cases hau : a.uid = u <;> simp [Function.comp, hau]
  have hgridnd : m.grid.Nodup := by
    unfold cellsNodup at hcell
    exact List.Nodup.of_map _ hcell
  have he0mem : (a0.pos, u) ∈ m.grid := ha0u ▸ ha2g a0 ha0
  have huniq : ∀ e ∈ m.grid, e.2 = u → e = (a0.pos, u) := by
    intro e he hv
    obtain ⟨b, hb, hbu, hbp⟩ := hg2a e he
    have hba0 : b = a0 := uid_inj huid hb ha0 (by rw [hbu, hv, ha0u])
    have : e = (e.1, e.2) := rfl
    rw [this, hv, ← hbp, hba0]
  have hfen := length_filter_ne (u := u) m.grid (a0.pos, u) he0mem rfl huniq hgridnd
  have hsubkeys : ((m.grid.filter (fun e => decide (e.2 ≠ u))).map (fun e => e.1)).Sublist
      (m.grid.map (fun e => e.1)) := (List.filter_sublist _).map _
  refine ⟨⟨?_, ?_, ?_, ?_, ?_, ?_, ?_⟩, huidmap, hdims⟩
  · show (m'.grid.map (fun e => e.1)).Nodup
    rw [hgrid, List.map_cons, List.nodup_cons]
    constructor
    · intro hcon
      obtain ⟨e, hef, hep⟩ := List.mem_map.mp hcon
      exact hkeys e (List.mem_of_mem_filter hef) (by rw [hep])
    · exact hsubkeys.nodup (by unfold cellsNodup at hcell; exact hcell)
  · show (m'.agents.map (fun a => a.uid)).Nodup
    rw [huidmap]
    exact huid
  · show ∀ a ∈ m'.agents, a.uid ≤ m'.current_id
    rw [hagents, hdims.2.2]
    intro x hx
    obtain ⟨b, hb, hbx⟩ := List.mem_map.mp hx
    have : x.uid = b.uid := by
      rw [← hbx]
      by_cases hbu : b.uid = u <;> simp [hbu]
    rw [this]
    exact hubnd b hb
  · show ∀ e ∈ m'.grid, ∃ a ∈ m'.agents, a.uid = e.2 ∧ a.pos = e.1
    rw [hgrid, hagents]
    intro e he
    rcases List.mem_cons.mp he with hep | hef
    · refine ⟨{ a0 with pos := p }, ?_, ?_, ?_⟩
      · have heq : { a0 with pos := p } =
            (fun a => if a.uid = u then { a with pos := p } else a) a0 := by
          show { a0 with pos := p } = if a0.uid = u then { a0 with pos := p } else a0
          rw [if_pos ha0u]
        rw [heq]
        exact List.mem_map_of_mem _ ha0
      · rw [hep]
        exact ha0u
      · rw [hep]
    · have hemem := List.mem_of_mem_filter hef
      have hene : decide (e.2 ≠ u) = true := (List.mem_filter.mp hef).2
      rw [decide_eq_true_eq] at hene
      obtain ⟨b, hb, hbu, hbp⟩ := hg2a e hemem
      refine ⟨b, ?_, hbu, hbp⟩
      have heq : b = (fun a => if a.uid = u then { a with pos := p } else a) b := by
        show b = if b.uid = u then { b with pos := p } else b
        rw [if_neg (by rw [hbu]; exact hene)]
      rw [heq]
      exact List.mem_map_of_mem _ hb
  · show ∀ a ∈ m'.agents, (a.pos, a.uid) ∈ m'.grid
    rw [hgrid, hagents]
    intro x hx
    obtain ⟨b, hb, hbx⟩ := List.mem_map.mp hx
    by_cases hbu : b.uid = u
    · have hxval : x = { b with pos := p } := by
        rw [← hbx]
        show (if b.uid = u then { b with pos := p } else b) = _
        rw [if_pos hbu]
      rw [hxval]
      show (p, b.uid) ∈ _
      rw [hbu]
      exact List.mem_cons_self _ _
    · have hxval : x = b := by
        rw [← hbx]
        show (if b.uid = u then { b with pos := p } else b) = _
        rw [if_neg hbu]
      rw [hxval]
      refine List.mem_cons_of_mem _ (List.mem_filter.mpr ⟨ha2g b hb, ?_⟩)
      rw [decide_eq_true_eq]
      exact hbu
  · show ∀ e ∈ m'.grid, e.1.1 < m'.height ∧ e.1.2 < m'.width
    rw [hgrid, hdims.1, hdims.2.1]
    intro e he
    rcases List.mem_cons.mp he with hep | hef
    · rw [hep]
      exact hbq
    · exact hbnd e (List.mem_of_mem_filter hef)
  · show m'.grid.length = m'.agents.length
    rw [hgrid, hagents, List.length_cons, List.length_map, ← hlen]
    omega

theorem nodup_append_singleton {α : Type} {l : List α} {x : α} (h : l.Nodup) (hx : x ∉ l) :
    (l ++ [x]).Nodup := by
  refine List.Nodup.append h (List.nodup_singleton x) ?_
  intro a ha hax
  rw [List.mem_singleton.mp hax] at ha
  exact hx ha

/-- Seeding a cell preserves the occupancy invariant. -/
theorem seedCell_Invariant {m m1 : Model} {r r1 : Rngs} {q : Nat × Nat}
    (hinv : Invariant m) (h : seedCell m r q = some (m1, r1)) : Invariant m1 := by
  by_cases hd : (randMesaFloat r).1 < m.density
  · obtain ⟨hbq0, hcm, -, hag, hgr, hci, hh, hw, -, -, -, -, -, -, -, -, -⟩ :=
      seedCell_seeded hd h
    obtain ⟨hcell, huid, hubnd, hg2a, ha2g, hbnd, hlen⟩ := hinv
    have hbq : q.1 < m.height ∧ q.2 < m.width := by
      unfold inBounds at hbq0
      rw [Bool.and_eq_true, decide_eq_true_eq, decide_eq_true_eq] at hbq0
      exact hbq0
    have hgnone : gridGet m q = none := by
      unfold is_cell_empty at hcm
      rw [Option.isNone_iff_eq_none] at hcm
      exact hcm
    have hkeys := gridGet_eq_none_iff.mp hgnone
    have huidA : ({ seededAgent m r q with pos := q } : Agent).uid = m.current_id + 1 := by
      show (allocInfluencer m).1.current_id + 1 = _
      rw [(allocInfluencer_base m).2.1]
    refine ⟨?_, ?_, ?_, ?_, ?_, ?_, ?_⟩
    · show (m1.grid.map (fun e => e.1)).Nodup
      rw [hgr, List.map_cons, List.nodup_cons]
      refine ⟨?_, hcell⟩
      intro hcon
      obtain ⟨e, he, hep⟩ := List.mem_map.mp hcon
      exact hkeys e he (by rw [hep])
    · show (m1.agents.map (fun a => a.uid)).Nodup
      rw [hag, List.map_append, List.map_cons, List.map_nil, huidA]
      refine nodup_append_singleton huid ?_
      intro hcon
      obtain ⟨b, hb, hbx⟩ := List.mem_map.mp hcon
      have := hubnd b hb
      omega
    · show ∀ a ∈ m1.agents, a.uid ≤ m1.current_id
      rw [hag, hci]
      intro x hx
      rcases List.mem_append.mp hx with hold | hnew
      · have := hubnd x hold
        omega
      · rw [List.mem_singleton.mp hnew, huidA]
    · show ∀ e ∈ m1.grid, ∃ a ∈ m1.agents, a.uid = e.2 ∧ a.pos = e.1
      rw [hgr, hag]
      intro e he
      rcases List.mem_cons.mp he with hep | hold
      · refine ⟨{ seededAgent m r q with pos := q }, ?_, ?_, ?_⟩
        · exact List.mem_append_right _ (List.mem_singleton.mpr rfl)
        · rw [hep, huidA]
        · rw [hep]
      · obtain ⟨b, hb, hbu, hbp⟩ := hg2a e hold
        exact ⟨b, List.mem_append_left _ hb, hbu, hbp⟩
    · show ∀ a ∈ m1.agents, (a.pos, a.uid) ∈ m1.grid
      rw [hgr, hag]
      intro x hx
      rcases List.mem_append.mp hx with hold | hnew
      · exact List.mem_cons_of_mem _ (ha2g x hold)
      · rw [List.mem_singleton.mp hnew]
        show ((q, ({ seededAgent m r q with pos := q } : Agent).uid) ∈ _)
        rw [huidA]
        exact List.mem_cons_self _ _
    · show ∀ e ∈ m1.grid, e.1.1 < m1.height ∧ e.1.2 < m1.width
      rw [hgr, hh, hw]
      intro e he
      rcases List.mem_cons.mp he with hep | hold
      · rw [hep]
        exact hbq
      · exact hbnd e hold
    · show m1.grid.length = m1.agents.length
      rw [hgr, hag, List.length_cons, List.length_append, List.length_cons, List.length_nil,
        hlen]
  · obtain ⟨hm, -⟩ := seedCell_skipped hd h
    rw [hm]
    exact hinv

/-- Every constructed state satisfies the occupancy invariant. -/
theorem construct_Invariant {p : Params} {r : Rngs} {m : Model} {r' : Rngs}
    (h : construct p r = some (m, r')) : Invariant m := by
  have hinit : ∀ mr : Model × Rngs, some (initModel p, r) = some mr → Invariant mr.1 := by
    intro mr hmr
    have heq : (initModel p, r) = mr := Option.some_inj.mp hmr
    rw [← heq]
    refine ⟨List.nodup_nil, List.nodup_nil, ?_, ?_, ?_, ?_, rfl⟩
    · intro a ha
      cases ha
    · intro e he
      cases he
    · intro a ha
      cases ha
    · intro e he
      cases he
  exact seed_foldl_preserve Invariant (fun m0 r0 q m1 r1 hP hs => seedCell_Invariant hP hs)
    (allCells p.height p.width) (some (initModel p, r)) hinit (m, r') h

/-- A random relocation preserves the invariant, the id list and the
dimensions. -/
theorem move_to_empty_Invariant {m : Model} {u : Nat} {r : Rngs} (hinv : Invariant m)
    (hex : ∃ b ∈ m.agents, b.uid = u) :
    Invariant (move_to_empty m u r).1 ∧
      (move_to_empty m u r).1.agents.map (fun a => a.uid) = m.agents.map (fun a => a.uid) ∧
      (move_to_empty m u r).1.height = m.height ∧ (move_to_empty m u r).1.width = m.width := by
  by_cases hne : empties m = []
  · rw [move_to_empty_of_full hne]
    exact ⟨hinv, rfl, rfl, rfl⟩
  · obtain ⟨q, hq, m2, hmove, heq⟩ := move_to_empty_spec hne
    rw [heq]
    obtain ⟨h1, h2, h3, h4, -⟩ := move_agent_Invariant hinv hex hmove
    exact ⟨h1, h2, h3, h4⟩

/-- One sub-move of the double move preserves the invariant, the id list and
the dimensions. -/
theorem double_move_once_Invariant {m m2 : Model} {u : Nat} {r r2 : Rngs} {a : Agent}
    (hinv : Invariant m) (ha : findAgent m u = some a)
    (h : double_move_once m u r = some (m2, r2)) :
    Invariant m2 ∧ m2.agents.map (fun x => x.uid) = m.agents.map (fun x => x.uid) ∧
      m2.height = m.height ∧ m2.width = m.width := by
  have hex : ∃ b ∈ m.agents, b.uid = u := ⟨a, findAgent_mem ha, findAgent_uid ha⟩
  cases hsel : (select_new_position (get_neighborhood m a.pos 2) r).1 with
  | none =>
    rw [double_move_once_sel_none ha hsel] at h
    cases h
  | some q =>
    rw [double_move_once_sel_some ha hsel] at h
    by_cases hce : is_cell_empty m q = true
    · rw [if_pos hce] at h
      obtain ⟨m3, hmove, hpair⟩ := Option.map_eq_some'.mp h
      have hm3 : m3 = m2 := congrArg Prod.fst hpair
      obtain ⟨h1, h2, h3, h4, -⟩ := move_agent_Invariant hinv hex hmove
      rw [← hm3]
      exact ⟨h1, h2, h3, h4⟩
    · rw [if_neg hce] at h
      have hm : m = m2 := congrArg Prod.fst (Option.some_inj.mp h)
      rw [← hm]
      exact ⟨hinv, rfl, rfl, rfl⟩

/-- The double move preserves the invariant, the id list and the
dimensions. -/
theorem double_move_Invariant {m m' : Model} {u : Nat} {r r' : Rngs} {a : Agent}
    (hinv : Invariant m) (ha : findAgent m u = some a)
    (h : double_move m u r = some (m', r')) :
    Invariant m' ∧ m'.agents.map (fun x => x.uid) = m.agents.map (fun x => x.uid) ∧
      m'.height = m.height ∧ m'.width = m.width := by
  unfold double_move at h
  cases h1 : double_move_once m u r with
  | none =>
    rw [h1] at h
    cases h
  | some mr1 =>
    rw [h1] at h
    have h2 : double_move_once mr1.1 u mr1.2 = some (m', r') := h
    obtain ⟨hi1, hm1, hh1, hw1⟩ := double_move_once_Invariant hinv ha h1
    obtain ⟨-, -, a1, ha1, -, -⟩ := double_move_once_out ha h1
    obtain ⟨hi2, hm2, hh2, hw2⟩ := double_move_once_Invariant hi1 ha1 h2
    exact ⟨hi2, hm2.trans hm1, hh2.trans hh1, hw2.trans hw1⟩

/-- One agent activation preserves the invariant, the id list and the
dimensions. -/
theorem stepAgent_Invariant {m m' : Model} {u : Nat} {r r' : Rngs} (hinv : Invariant m)
    (h : stepAgent m u r = some (m', r')) :
    Invariant m' ∧ m'.agents.map (fun x => x.uid) = m.agents.map (fun x => x.uid) ∧
      m'.height = m.height ∧ m'.width = m.width := by
  cases hfa : findAgent m u with
  | none =>
    unfold stepAgent at h
    rw [hfa] at h
    have hm : m = m' := congrArg Prod.fst (Option.some_inj.mp h)
    rw [← hm]
    exact ⟨hinv, rfl, rfl, rfl⟩
  | some a =>
    have hex : ∃ b ∈ m.agents, b.uid = u := ⟨a, findAgent_mem hfa, findAgent_uid hfa⟩
    by_cases hi : a.is_influencer = true
    · rw [stepAgent_influencer hfa hi] at h
      cases ht : a.tolerance_rate with
      | none =>
        rw [mbt_no_tolerance ht] at h
        cases h
      | some t =>
        by_cases hlt : (tolCombined m a : Int) < t
        · rw [mbt_below ht hlt] at h
          have hm : (move_to_empty m a.uid r).1 = m' :=
            congrArg Prod.fst (Option.some_inj.mp h)
          have hau : a.uid = u := findAgent_uid hfa
          obtain ⟨h1, h2, h3, h4⟩ := move_to_empty_Invariant hinv (hau ▸ hex) (r := r)
          rw [← hm]
          exact ⟨h1, h2, h3, h4⟩
        · rw [mbt_at_or_above ht (by omega)] at h
          have hm : m = m' := congrArg Prod.fst (Option.some_inj.mp h)
          rw [← hm]
          exact ⟨hinv, rfl, rfl, rfl⟩
    · have hord : a.is_influencer = false := by
        cases hcase : a.is_influencer with
        | true => exact absurd hcase hi
        | false => rfl
      rw [stepAgent_ordinary hfa hord] at h
      by_cases hh : m.homophily ≤ (ordSimilar m a : Int)
      · rw [mbit_happy hh] at h
        have hm : ({ m with happy := m.happy + 1 } : Model) = m' :=
          congrArg Prod.fst (Option.some_inj.mp h)
        rw [← hm]
        exact ⟨hinv, rfl, rfl, rfl⟩
      · by_cases hp : hasInfluenceKind m a Influence.positive = true
        · rw [mbit_positive hh hp] at h
          have hm : m = m' := congrArg Prod.fst (Option.some_inj.mp h)
          rw [← hm]
          exact ⟨hinv, rfl, rfl, rfl⟩
        · have hpf : hasInfluenceKind m a Influence.positive = false := by
            cases hcase : hasInfluenceKind m a Influence.positive with
            | true => exact absurd hcase hp
            | false => rfl
          by_cases hn : hasInfluenceKind m a Influence.negative = true
          · rw [mbit_negative hh hpf hn] at h
            have hau : a.uid = u := findAgent_uid hfa
            exact double_move_Invariant hinv (hau ▸ hfa) h
          · have hnf : hasInfluenceKind m a Influence.negative = false := by
              cases hcase : hasInfluenceKind m a Influence.negative with
              | true => exact absurd hcase hn
              | false => rfl
            rw [mbit_relocate hh hpf hnf] at h
            have hm : (move_to_empty m a.uid r).1 = m' :=
              congrArg Prod.fst (Option.some_inj.mp h)
            have hau : a.uid = u := findAgent_uid hfa
            obtain ⟨h1, h2, h3, h4⟩ := move_to_empty_Invariant hinv (hau ▸ hex) (r := r)
            rw [← hm]
            exact ⟨h1, h2, h3, h4⟩

theorem foldl_bind_none :
    ∀ ids : List Nat,
      ids.foldl (fun acc u => acc.bind (fun mr2 => stepAgent mr2.1 u mr2.2))
        (none : Option (Model × Rngs)) = none := by
  intro ids
  induction ids with
  | nil => rfl
  | cons u rest ih =>
    rw [List.foldl_cons]
    exact ih

/-- Running a list of activations preserves the invariant, the id list and
the dimensions. -/
theorem runAgents_Invariant :
    ∀ (ids : List Nat) (m : Model) (r : Rngs) (m' : Model) (r' : Rngs), Invariant m →
      runAgents ids (m, r) = some (m', r') →
      Invariant m' ∧ m'.agents.map (fun x => x.uid) = m.agents.map (fun x => x.uid) ∧
        m'.height = m.height ∧ m'.width = m.width := by
  intro ids
  induction ids with
  | nil =>
    intro m r m' r' hinv h
    have hm : m = m' := congrArg Prod.fst (Option.some_inj.mp h)
    rw [← hm]
    exact ⟨hinv, rfl, rfl, rfl⟩
  | cons u rest ih =>
    intro m r m' r' hinv h
    unfold runAgents at h
    rw [List.foldl_cons] at h
    cases h1 : stepAgent m u r with
    | none =>
      rw [show (some (m, r)).bind (fun mr2 => stepAgent mr2.1 u mr2.2) = none from by
        rw [show (some (m, r)).bind (fun mr2 => stepAgent mr2.1 u mr2.2) =
          stepAgent m u r from rfl, h1], foldl_bind_none rest] at h
      cases h
    | some mr1 =>
      rw [show (some (m, r)).bind (fun mr2 => stepAgent mr2.1 u mr2.2) =
        stepAgent m u r from rfl, h1] at h
      obtain ⟨h2, h3, h4, h5⟩ := stepAgent_Invariant hinv
        (show stepAgent m u r = some (mr1.1, mr1.2) from h1)
      obtain ⟨h6, h7, h8, h9⟩ := ih mr1.1 mr1.2 m' r' h2 h
      exact ⟨h6, h7.trans h3, h8.trans h4, h9.trans h5⟩

/-- One tick preserves the invariant, the id list and the dimensions. -/
theorem tick_Invariant {m m' : Model} {r r' : Rngs} (hinv : Invariant m)
    (h : tick m r = some (m', r')) :
    Invariant m' ∧ m'.agents.map (fun x => x.uid) = m.agents.map (fun x => x.uid) ∧
      m'.height = m.height ∧ m'.width = m.width := by
  unfold tick at h
  have hinv0 : Invariant ({ m with happy := 0 } : Model) := hinv
  obtain ⟨h1, h2, h3, h4⟩ := runAgents_Invariant _ _ _ _ _ hinv0 h
  exact ⟨h1, h2, h3, h4⟩

/-- Every reachable state satisfies the occupancy invariant. -/
theorem Reachable_Invariant {p : Params} {m : Model} (h : Reachable p m) : Invariant m := by
  induction h with
  | base r m2 r' hc => exact construct_Invariant hc
  | tick m2 r m3 r' hr ht ih => exact (tick_Invariant ih ht).1

/-- C8: in every reachable state the number of occupied cells equals the
number of scheduled agents (ticks neither create nor destroy agents: the id
list is preserved), no two agents occupy the same cell, every occupied cell
and every agent position lies within `[0,height) x [0,width)`, every occupied
cell's agent records that cell as its position, and every agent's cell stores
its id. -/
theorem C8_occupancy_invariant (p : Params) (m : Model) (h : Reachable p m) :
    m.grid.length = m.agents.length ∧
    (m.grid.map (fun e => e.1)).Nodup ∧
    (∀ e ∈ m.grid, e.1.1 < m.height ∧ e.1.2 < m.width) ∧
    (∀ a ∈ m.agents, a.pos.1 < m.height ∧ a.pos.2 < m.width) ∧
    (∀ e ∈ m.grid, ∃ a, findAgent m e.2 = some a ∧ a.pos = e.1) ∧
    (∀ a ∈ m.agents, gridGet m a.pos = some a.uid) ∧
    (∀ r2 m' r3, tick m r2 = some (m', r3) →
      m'.agents.map (fun x => x.uid) = m.agents.map (fun x => x.uid) ∧
        m'.grid.length = m.grid.length) := by
  have hinv := Reachable_Invariant h
  obtain ⟨hcell, huid, hubnd, hg2a, ha2g, hbnd, hlen⟩ := hinv
  refine ⟨hlen, hcell, hbnd, ?_, ?_, ?_, ?_⟩
  · intro a ha
    exact hbnd (a.pos, a.uid) (ha2g a ha)
  · intro e he
    obtain ⟨b, hb, hbu, hbp⟩ := hg2a e he
    refine ⟨b, ?_, hbp⟩
    rw [← hbu]
    exact findAgent_of_mem huid hb
  · intro a ha
    exact gridGet_of_mem hcell (ha2g a ha)
  · intro r2 m' r3 ht
    obtain ⟨hi2, hm2, -, -⟩ := tick_Invariant ⟨hcell, huid, hubnd, hg2a, ha2g, hbnd, hlen⟩ ht
    refine ⟨hm2, ?_⟩
    rw [hi2.2.2.2.2.2.2, hlen]
    have := congrArg List.length hm2
    rw [List.length_map, List.length_map] at this
    exact this

/-- Witness for C8: the constructed state of the seeded 2 by 2 grid is
reachable, and its occupied-cell count equals its agent count. -/
theorem C8_occupancy_invariant_witness : mW5.grid.length = mW5.agents.length :=
  (C8_occupancy_invariant pW5 mW5
    (Reachable.base rEmpty mW5 rW5 (by decide))).1

/-- Witness for C5: with `num_type1 = 2`, `num_type2 = 1` and a fully seeded
2 by 2 grid, the first two seeded agents are positive influencers, the third
is a negative influencer and the fourth is ordinary. -/
theorem C5_seeding_allocation_witness :
    (mW5.agents.getD 0 dfltAgent).influence_type = some Influence.positive ∧
    (mW5.agents.getD 1 dfltAgent).influence_type = some Influence.positive ∧
    (mW5.agents.getD 2 dfltAgent).influence_type = some Influence.negative ∧
    (mW5.agents.getD 3 dfltAgent).is_influencer = false := by
  have h : construct pW5 rEmpty = some (mW5, rW5) := by decide
  refine ⟨((C5_seeding_allocation pW5 rEmpty mW5 rW5 h 0 (by decide)).1 (by decide)).2.1,
    ((C5_seeding_allocation pW5 rEmpty mW5 rW5 h 1 (by decide)).1 (by decide)).2.1,
    ((C5_seeding_allocation pW5 rEmpty mW5 rW5 h 2 (by decide)).2.1 (by decide) (by decide)).2.1,
    ((C5_seeding_allocation pW5 rEmpty mW5 rW5 h 3 (by decide)).2.2 (by decide)).1⟩

end SchellingSim
